import Mathlib

/-!
# BorderBeam: the multi-viewport point-cloud viewer

A shallow embedding of `src/components/PotreeViewer.jsx` (the point-cloud
generator, one viewport session with its handlers, the reconciliation effect
and the render loop of the `PotreeViewer` component), of the state and the
handlers of `src/pages/Dashboard.jsx`, and of the view buttons of
`src/components/DetectionList.jsx`.

Modelling conventions

* JavaScript numbers are rationals. In the point-cloud generator and in the
  drag handler every arithmetic result is rounded to the nearest binary64
  value (`toDouble`), a decimal literal such as `0.005` is the binary64 value
  nearest to it, and the position buffer, a `Float32Array`, holds the nearest
  binary32 value (`toFloat32`). Infinities and NaN are not modelled. The config
  literals, the wheel handler and the resize handler are written with the
  exact values `1/20`, `3/2`, `6/5`, `3/50`, `1/10`.
* `Math.random` is a stream `rand : Nat → ℚ` read through a cursor that every
  function consuming draws takes and returns.
* `null` / `undefined` is `none`.
* A DOM container is its identity together with its current pixel size.
* Mutable objects are values; a function that mutates returns the new value.
-/

namespace BorderBeam

/-! ## Data model -/

/-- Detection record, with the fields built in `Dashboard.jsx`. -/
structure Detection where
  id : Nat
  type : String
  time : String
  name : String
  originalPointCloud : Option String
  detectionPointCloud : Option String
  isLasUpload : Bool
  deriving DecidableEq, Repr

/-- The `String.prototype.startsWith` test, on the characters of both strings. -/
def startsWith (s pre : String) : Bool :=
  pre.data.isPrefixOf s.data

/-- Config object literal of the reconciliation effect; `offsetX` is read by
`initThreeScene` and is absent (`none`) unless a caller supplies it. -/
structure PointCloudConfig where
  color : Nat
  size : ℚ
  spread : ℚ
  density : ℚ
  offsetX : Option ℚ
  deriving DecidableEq, Repr

/-- A `THREE.Vector3`. -/
structure Vector3 where
  x : ℚ
  y : ℚ
  z : ℚ
  deriving DecidableEq, Repr

/-- A `THREE.Points` node: its position, the position buffer of its geometry
(item size 3), the size and colour of its material, and whether the geometry
and the material have been disposed. -/
structure Points where
  position : Vector3
  vertices : List ℚ
  size : ℚ
  color : Nat
  geometryDisposed : Bool
  materialDisposed : Bool
  deriving DecidableEq, Repr

/-- A DOM container: identity and current pixel dimensions. -/
structure Container where
  id : Nat
  clientWidth : Int
  clientHeight : Int
  deriving DecidableEq, Repr

/-- A `THREE.Scene`, by its background colour. -/
structure Scene where
  background : Nat
  deriving DecidableEq, Repr

/-- A `THREE.PerspectiveCamera`. -/
structure Camera where
  fov : ℚ
  aspect : ℚ
  near : ℚ
  far : ℚ
  position : Vector3
  deriving DecidableEq, Repr

/-- A `THREE.WebGLRenderer`: output size and whether it has been disposed. -/
structure Renderer where
  width : Int
  height : Int
  disposed : Bool
  deriving DecidableEq, Repr

/-- A `THREE.Group` holding the point-cloud nodes, with its rotation. -/
structure Group where
  children : List Points
  rotationX : ℚ
  rotationY : ℚ
  deriving DecidableEq, Repr

/-- The object returned by `initThreeScene` together with the variables its
closures capture (`isDragging`, `previousMousePosition`) and whether the five
listeners are registered on the canvas. -/
structure Session where
  scene : Scene
  camera : Camera
  renderer : Renderer
  pointCloudGroup : Group
  container : Nat
  isDragging : Bool
  previousMousePosition : ℚ × ℚ
  listening : Bool
  deriving DecidableEq, Repr

/-! ## IEEE 754 rounding -/

/-- Nearest integer, ties to the even one. -/
def roundHalfEven (t : ℚ) : ℤ :=
  if t - ⌊t⌋ < 1 / 2 then ⌊t⌋
  else if 1 / 2 < t - ⌊t⌋ then ⌊t⌋ + 1
  else if ⌊t⌋ % 2 = 0 then ⌊t⌋ else ⌊t⌋ + 1

/-- Exponent of the unit in the last place at magnitude `a`, for a binary
format with `p` bits of precision whose least exponent is `emin`. -/
def ulpExponent (p : ℕ) (emin : ℤ) (a : ℚ) : ℤ :=
  max (Int.log 2 a - ((p : ℤ) - 1)) emin

/-- A magnitude rounded to the nearest value of the format, ties to even. -/
def roundMagnitude (p : ℕ) (emin : ℤ) (a : ℚ) : ℚ :=
  (roundHalfEven (a / (2 : ℚ) ^ ulpExponent p emin a) : ℚ) * (2 : ℚ) ^ ulpExponent p emin a

/-- Round to nearest, ties to even, in a binary format (overflow to infinity
is not modelled). -/
def roundBinary (p : ℕ) (emin : ℤ) (x : ℚ) : ℚ :=
  if x < 0 then -roundMagnitude p emin (-x) else roundMagnitude p emin x

/-- The IEEE 754 binary64 value nearest to `x`: the result of a JavaScript
arithmetic operation whose exact result is `x`. -/
def toDouble (x : ℚ) : ℚ := roundBinary 53 (-1074) x

/-- The IEEE 754 binary32 value nearest to `x`: the value a `Float32Array`
holds after `x` is stored in it. -/
def toFloat32 (x : ℚ) : ℚ := roundBinary 24 (-149) x

/-! ## Point-cloud generator -/

/-- The `for (let i = 0; i < numPoints; i++)` loop of `createPointCloud`:
`i` is the loop counter, `k` the cursor in the random stream, `vertices` the
array being pushed to. The difference and the product are doubles. -/
def createPointCloud.loop (rand : Nat → ℚ) (spread numPoints : ℚ)
    (i k : Nat) (vertices : List ℚ) : List ℚ × Nat :=
  if (i : ℚ) < numPoints then
    let x := toDouble (toDouble (rand k - 1 / 2) * spread)
    let y := toDouble (toDouble (rand (k + 1) - 1 / 2) * spread)
    let z := toDouble (toDouble (rand (k + 2) - 1 / 2) * spread)
    createPointCloud.loop rand spread numPoints (i + 1) (k + 3) (vertices ++ [x, y, z])
  else
    (vertices, k)
termination_by ⌈numPoints⌉₊ - i
decreasing_by
  have h : i < ⌈numPoints⌉₊ := Nat.lt_ceil.mpr (by assumption)
  omega

/-- Source function `createPointCloud(color, size, spread, densityFactor)`.
The product `5000 * densityFactor` is a double; the `Float32BufferAttribute`
holds each pushed coordinate as a binary32 value. -/
def createPointCloud (rand : Nat → ℚ) (k : Nat) (color : Nat) (size spread densityFactor : ℚ) :
    Points × Nat :=
  let numPoints := toDouble (5000 * densityFactor)
  let r := createPointCloud.loop rand spread numPoints 0 k []
  ({ position := { x := 0, y := 0, z := 0 }
     vertices := r.1.map toFloat32
     size := size
     color := color
     geometryDisposed := false
     materialDisposed := false }, r.2)

/-! ## Viewport session -/

/-- The `pointCloudConfigs.forEach` of `initThreeScene`: a null config is
skipped, a truthy `offsetX` moves the node along x. -/
def initThreeScene.forEach (rand : Nat → ℚ) :
    Nat → List (Option PointCloudConfig) → List Points → List Points × Nat
  | k, [], children => (children, k)
  | k, none :: rest, children => initThreeScene.forEach rand k rest children
  | k, some config :: rest, children =>
    let r := createPointCloud rand k config.color config.size config.spread config.density
    let points : Points :=
      match config.offsetX with
      | some o => if o ≠ 0 then { r.1 with position := { r.1.position with x := o } } else r.1
      | none => r.1
    initThreeScene.forEach rand r.2 rest (children ++ [points])

/-- Source function `initThreeScene(container, pointCloudConfigs)`. -/
def initThreeScene (rand : Nat → ℚ) (k : Nat) (container : Option Container)
    (pointCloudConfigs : List (Option PointCloudConfig)) : Option Session × Nat :=
  match container with
  | none => (none, k)
  | some c =>
    let width : Int := if c.clientWidth = 0 then 300 else c.clientWidth
    let height : Int := if c.clientHeight = 0 then 200 else c.clientHeight
    let r := initThreeScene.forEach rand k pointCloudConfigs []
    (some
      { scene := { background := 0xf0f0f0 }
        camera :=
          { fov := 60, aspect := (width : ℚ) / (height : ℚ), near := 1 / 10, far := 1000
            position := { x := 0, y := 0, z := 20 } }
        renderer := { width := width, height := height, disposed := false }
        pointCloudGroup := { children := r.1, rotationX := 0, rotationY := 0 }
        container := c.id
        isDragging := false
        previousMousePosition := (0, 0)
        listening := true }, r.2)

/-- Handler `handleMouseDown`, with the event's `offsetX`, `offsetY`. -/
def handleMouseDown (offsetX offsetY : ℚ) (s : Session) : Session :=
  { s with isDragging := true, previousMousePosition := (offsetX, offsetY) }

/-- Handler `handleMouseUp` (also registered for `mouseout`). -/
def handleMouseUp (s : Session) : Session :=
  { s with isDragging := false }

/-- Handler `handleMouseMove`, with the event's `offsetX`, `offsetY`. The
differences, the products with the literal `0.005` and the sums are doubles. -/
def handleMouseMove (offsetX offsetY : ℚ) (s : Session) : Session :=
  if s.isDragging then
    let deltaX := toDouble (offsetX - s.previousMousePosition.1)
    let deltaY := toDouble (offsetY - s.previousMousePosition.2)
    { s with
      pointCloudGroup :=
        { s.pointCloudGroup with
          rotationY :=
            toDouble (s.pointCloudGroup.rotationY + toDouble (deltaX * toDouble (1 / 200)))
          rotationX :=
            toDouble (s.pointCloudGroup.rotationX + toDouble (deltaY * toDouble (1 / 200))) }
      previousMousePosition := (offsetX, offsetY) }
  else s

/-- Handler `handleWheel`, with the event's `deltaY`. -/
def handleWheel (deltaY : ℚ) (s : Session) : Session :=
  let z1 := s.camera.position.z + deltaY * (1 / 10)
  let z2 := max 1 (min 100 z1)
  { s with camera := { s.camera with position := { s.camera.position with z := z2 } } }

/-- Method `handleResize` of a session; `container` is the current state of
the container the session was created in. -/
def handleResize (container : Container) (s : Session) : Session :=
  let newWidth := container.clientWidth
  let newHeight := container.clientHeight
  if 0 < newWidth ∧ 0 < newHeight then
    { s with
      camera := { s.camera with aspect := (newWidth : ℚ) / (newHeight : ℚ) }
      renderer := { s.renderer with width := newWidth, height := newHeight } }
  else s

/-- The `while (pointCloudGroup.children.length > 0)` loop of `cleanup`: the
first child has its geometry and material disposed and is removed from the
group; `released` collects the removed nodes. -/
def cleanup.loop : List Points → List Points → List Points × List Points
  | [], released => ([], released)
  | child :: rest, released =>
    cleanup.loop rest
      (released ++ [{ child with geometryDisposed := true, materialDisposed := true }])

/-- Method `cleanup` of a session: the session afterwards, and the nodes it
removed from the group. -/
def cleanup (s : Session) : Session × List Points :=
  let r := cleanup.loop s.pointCloudGroup.children []
  ({ s with
     listening := false
     pointCloudGroup := { s.pointCloudGroup with children := r.1 }
     renderer := { s.renderer with disposed := true } }, r.2)

/-! ## Reconciliation effect of `PotreeViewer` -/

/-- The three keys of `threeObjects`. -/
inductive Slot where
  | main
  | top
  | bottom
  deriving DecidableEq, Repr

/-- State `threeObjects`: `{ main, top, bottom }`. -/
structure ThreeObjects where
  main : Option Session
  top : Option Session
  bottom : Option Session
  deriving DecidableEq, Repr

/-- The `.current` of the three container refs at the time the effect runs. -/
structure Refs where
  mainContainerRef : Option Container
  topContainerRef : Option Container
  bottomContainerRef : Option Container
  deriving DecidableEq, Repr

/-- A call made by the effect: `cleanup()` of the session tracked in a slot,
or `initThreeScene` whose result is stored in a slot. -/
inductive Call where
  | cleanup (slot : Slot)
  | initThreeScene (slot : Slot)
  deriving DecidableEq, Repr

/-- Whether a call is a `cleanup`. -/
def Call.isCleanup : Call → Bool
  | Call.cleanup _ => true
  | Call.initThreeScene _ => false

/-- Whether a call is an `initThreeScene`. -/
def Call.isInit : Call → Bool
  | Call.cleanup _ => false
  | Call.initThreeScene _ => true

/-- Outcome of one run of the effect: the object passed to `setThreeObjects`,
the previous sessions as their `cleanup` left them, the calls in order, and
the cursor of the random stream. -/
structure Reconciled where
  threeObjects : ThreeObjects
  previous : ThreeObjects
  trace : List Call
  randPos : Nat

/-- Expression `detection?.originalPointCloud?.startsWith("LAS_FILE:")`, as a
truth value. -/
def isLas (detection : Option Detection) : Bool :=
  match detection with
  | none => false
  | some d =>
    match d.originalPointCloud with
    | none => false
    | some s => startsWith s "LAS_FILE:"

/-- Local `originalConfig` of the effect. -/
def originalConfig (detection : Option Detection) : Option PointCloudConfig :=
  match detection with
  | none => none
  | some _ =>
    some
      { color := if isLas detection then 0x009900 else 0x007bff
        size := 1 / 20
        spread := 10
        density := if isLas detection then 3 / 2 else 1
        offsetX := none }

/-- Local `detectionConfig` of the effect. -/
def detectionConfig (detection : Option Detection) : Option PointCloudConfig :=
  match detection with
  | none => none
  | some _ =>
    some
      { color := if isLas detection then 0xff8c00 else 0xdc3545
        size := if isLas detection then 3 / 50 else 1 / 20
        spread := if isLas detection then 10 else 8
        density := if isLas detection then 6 / 5 else 1
        offsetX := none }

/-- One line `if (threeObjects.slot?.cleanup) threeObjects.slot.cleanup();`. -/
def cleanupSlot (slot : Slot) (tracked : Option Session) (trace : List Call) :
    Option Session × List Call :=
  match tracked with
  | none => (none, trace)
  | some s => (some (cleanup s).1, trace ++ [Call.cleanup slot])

/-- One line `if (ref.current) newThreeObjects.slot = initThreeScene(ref.current, configs);`. -/
def initSlot (rand : Nat → ℚ) (k : Nat) (slot : Slot) (ref : Option Container)
    (configs : List (Option PointCloudConfig)) (trace : List Call) :
    Option Session × Nat × List Call :=
  match ref with
  | none => (none, k, trace)
  | some c =>
    let r := initThreeScene rand k (some c) configs
    (r.1, r.2, trace ++ [Call.initThreeScene slot])

/-- The first `useEffect` of `PotreeViewer` (dependencies `detection`,
`viewMode`, `isBothViewCombined`). -/
def reconcile (rand : Nat → ℚ) (k : Nat) (refs : Refs) (threeObjects : ThreeObjects)
    (detection : Option Detection) (viewMode : String) (isBothViewCombined : Bool) :
    Reconciled :=
  let c1 := cleanupSlot Slot.main threeObjects.main []
  let c2 := cleanupSlot Slot.top threeObjects.top c1.2
  let c3 := cleanupSlot Slot.bottom threeObjects.bottom c2.2
  let previous : ThreeObjects := { main := c1.1, top := c2.1, bottom := c3.1 }
  let empty : ThreeObjects := { main := none, top := none, bottom := none }
  let originalConfig := originalConfig detection
  let detectionConfig := detectionConfig detection
  match detection with
  | none => { threeObjects := empty, previous := previous, trace := c3.2, randPos := k }
  | some _ =>
    if viewMode = "both" then
      if isBothViewCombined then
        let m := initSlot rand k Slot.main refs.mainContainerRef
          [originalConfig, detectionConfig] c3.2
        { threeObjects := { empty with main := m.1 }
          previous := previous, trace := m.2.2, randPos := m.2.1 }
      else
        let t := initSlot rand k Slot.top refs.topContainerRef [originalConfig] c3.2
        let b := initSlot rand t.2.1 Slot.bottom refs.bottomContainerRef [detectionConfig] t.2.2
        { threeObjects := { empty with top := t.1, bottom := b.1 }
          previous := previous, trace := b.2.2, randPos := b.2.1 }
    else if viewMode = "original" then
      let m := initSlot rand k Slot.main refs.mainContainerRef [originalConfig] c3.2
      { threeObjects := { empty with main := m.1 }
        previous := previous, trace := m.2.2, randPos := m.2.1 }
    else if viewMode = "detection" then
      let m := initSlot rand k Slot.main refs.mainContainerRef [detectionConfig] c3.2
      { threeObjects := { empty with main := m.1 }
        previous := previous, trace := m.2.2, randPos := m.2.1 }
    else { threeObjects := empty, previous := previous, trace := c3.2, randPos := k }

/-- Expression `Object.values(threeObjects).filter(Boolean)`. -/
def activeInstances (t : ThreeObjects) : List Session :=
  [t.main, t.top, t.bottom].filterMap id

/-- Number of live sessions the effect publishes. -/
def liveCount (r : Reconciled) : Nat :=
  (activeInstances r.threeObjects).length

/-- Session tracked in a slot of `threeObjects`. -/
def ThreeObjects.get (t : ThreeObjects) : Slot → Option Session
  | Slot.main => t.main
  | Slot.top => t.top
  | Slot.bottom => t.bottom

/-- A run of wheel events, oldest first, delivered to `handleWheel`. -/
def wheelEvents (deltas : List ℚ) (s : Session) : Session :=
  deltas.foldl (fun acc deltaY => handleWheel deltaY acc) s

/-- The origin, the default position of an `Object3D`. -/
def origin : Vector3 := { x := 0, y := 0, z := 0 }

/-- First element of the initial `detections` state of `Dashboard`. -/
def seedDetection1 : Detection :=
  { id := 1
    type := "Obstacle"
    time := "2023-06-15T10:30:00"
    name := "Pre-processed Scan 1"
    originalPointCloud := some "/pointclouds/original1.json"
    detectionPointCloud := some "/pointclouds/detection1.json"
    isLasUpload := false }

/-- Second element of the initial `detections` state of `Dashboard`. -/
def seedDetection2 : Detection :=
  { id := 2
    type := "Hazard"
    time := "2023-06-15T11:45:00"
    name := "Pre-processed Scan 2"
    originalPointCloud := some "/pointclouds/original2.json"
    detectionPointCloud := some "/pointclouds/detection2.json"
    isLasUpload := false }

/-- Initial value of the `detections` state of `Dashboard`. -/
def seedDetections : List Detection :=
  [seedDetection1, seedDetection2]

/-- A run of `mousemove` events, oldest first, delivered to `handleMouseMove`;
each event is its `(offsetX, offsetY)`. -/
def mouseMoves (moves : List (ℚ × ℚ)) (s : Session) : Session :=
  moves.foldl (fun acc p => handleMouseMove p.1 p.2 acc) s

/-- The rotation about one axis after a drag, in the words of the spec
("proportionally to drag delta with a fixed damping constant") as JavaScript
evaluates them: from the rotation and the pointer coordinate at `mousedown`,
every coordinate of a move adds 0.005 times its distance from the previous
coordinate; the distance, the product and the sum are doubles. -/
def accumulateRotation (rotation previous : ℚ) : List ℚ → ℚ
  | [] => rotation
  | x :: rest =>
    accumulateRotation
      (toDouble (rotation + toDouble (toDouble (x - previous) * toDouble (1 / 200)))) x rest

/-- A node after `geometry.dispose()` and `material.dispose()`. -/
def Points.released (p : Points) : Points :=
  { p with geometryDisposed := true, materialDisposed := true }

/-- A detection as `handleFileChange` builds it for a file called `scan.las`. -/
def uploadedSample : Detection :=
  { id := 3
    type := "Uploaded LAS"
    time := "2023-06-16T09:00:00.000Z"
    name := "scan.las"
    originalPointCloud := some "LAS_FILE:scan.las"
    detectionPointCloud := none
    isLasUpload := true }

/-! ## Render loop of `PotreeViewer`

Session objects are mutable and shared by reference between the state
`threeObjects` and the closure of `animate`, so the component is modelled with
a heap of sessions addressed by handles. Three steps are kept apart, as they
are in the source: a run of the reconciliation effect, which ends in
`setThreeObjects`; the render that makes the new `threeObjects` current and
with it re-runs the render-loop effect (dependency `[threeObjects]`); and a
run of `animate`. -/

/-- Handles of the sessions in the three slots of a `threeObjects` value. -/
structure Handles where
  main : Option Nat
  top : Option Nat
  bottom : Option Nat
  deriving DecidableEq, Repr

/-- Expression `Object.values(threeObjects).filter(Boolean)`, on handles. -/
def Handles.active (h : Handles) : List Nat :=
  [h.main, h.top, h.bottom].filterMap id

/-- The `PotreeViewer` component: the session objects created so far, the next
unused handle, the state `threeObjects` of the current render, the argument of
a `setThreeObjects` call not rendered yet, the `activeInstances` captured by
the `animate` closure that is scheduled, the sessions passed to
`renderer.render` so far (each as it was at that moment), and the cursor of the
random stream. -/
structure Viewer where
  heap : Nat → Option Session
  next : Nat
  threeObjects : Handles
  pending : Option Handles
  loop : List Nat
  renders : List Session
  randPos : Nat

/-- The component at mount, before its effects run. -/
def Viewer.initial : Viewer :=
  { heap := fun _ => none
    next := 0
    threeObjects := { main := none, top := none, bottom := none }
    pending := none
    loop := []
    renders := []
    randPos := 0 }

/-- Session object behind an optional handle. -/
def Viewer.deref (v : Viewer) (h : Option Nat) : Option Session :=
  h.bind v.heap

/-- The heap after the object behind a handle was mutated to `s`. -/
def storeAt (heap : Nat → Option Session) (h : Option Nat) (s : Option Session) :
    Nat → Option Session :=
  match h, s with
  | some i, some x => fun j => if j = i then some x else heap j
  | _, _ => heap

/-- A run of the reconciliation effect in the component: `reconcile` on the
sessions of the current `threeObjects`; their `cleanup` mutates them in place;
the sessions created get the handles `next`, `next + 1`, `next + 2` for main,
top, bottom; the new slot map is handed to `setThreeObjects`. -/
def Viewer.runEffect (rand : Nat → ℚ) (refs : Refs) (detection : Option Detection)
    (viewMode : String) (isBothViewCombined : Bool) (v : Viewer) : Viewer :=
  let prev : ThreeObjects :=
    { main := v.deref v.threeObjects.main
      top := v.deref v.threeObjects.top
      bottom := v.deref v.threeObjects.bottom }
  let r := reconcile rand v.randPos refs prev detection viewMode isBothViewCombined
  let heap1 :=
    storeAt
      (storeAt (storeAt v.heap v.threeObjects.main r.previous.main)
        v.threeObjects.top r.previous.top)
      v.threeObjects.bottom r.previous.bottom
  { heap := fun j =>
      if j = v.next then r.threeObjects.main
      else if j = v.next + 1 then r.threeObjects.top
      else if j = v.next + 2 then r.threeObjects.bottom
      else heap1 j
    next := v.next + 3
    threeObjects := v.threeObjects
    pending :=
      some
        { main := r.threeObjects.main.map (fun _ => v.next)
          top := r.threeObjects.top.map (fun _ => v.next + 1)
          bottom := r.threeObjects.bottom.map (fun _ => v.next + 2) }
    loop := v.loop
    renders := v.renders
    randPos := r.randPos }

/-- The render after `setThreeObjects`: the new value becomes the state, the
render-loop effect is cleaned up (`cancelAnimationFrame`) and run again, so
`animate` now closes over the new `activeInstances`. -/
def Viewer.commit (v : Viewer) : Viewer :=
  match v.pending with
  | none => v
  | some p => { v with threeObjects := p, pending := none, loop := p.active }

/-- One run of `animate`: `renderer.render` on every captured instance (a
session object always has `renderer`, `scene` and `camera`, so the guard
passes). -/
def Viewer.frame (v : Viewer) : Viewer :=
  { v with renders := v.renders ++ v.loop.filterMap v.heap }

/-- What can happen to the component: the triple changes and the
reconciliation effect runs, the published slot map is rendered, or a display
frame fires. -/
inductive ViewerEvent where
  | change (refs : Refs) (detection : Option Detection) (viewMode : String)
      (isBothViewCombined : Bool)
  | commit
  | frame

/-- Effect of one event. -/
def Viewer.step (rand : Nat → ℚ) (v : Viewer) : ViewerEvent → Viewer
  | ViewerEvent.change refs detection viewMode flag =>
    v.runEffect rand refs detection viewMode flag
  | ViewerEvent.commit => v.commit
  | ViewerEvent.frame => v.frame

/-- Effect of a sequence of events, oldest first. -/
def Viewer.after (rand : Nat → ℚ) (events : List ViewerEvent) (v : Viewer) : Viewer :=
  events.foldl (Viewer.step rand) v

/-- The slot map published last: the pending one, else the current state. -/
def Viewer.published (v : Viewer) : Handles :=
  v.pending.getD v.threeObjects

/-- Invariant of the component: no session of the slot map published last has
been disposed, and when no publication is pending `animate` closes over
exactly the sessions of the current state. -/
def Viewer.Sound (v : Viewer) : Prop :=
  (∀ h ∈ v.published.active, ∀ s, v.heap h = some s → s.renderer.disposed = false) ∧
  (v.pending = none → v.loop = v.threeObjects.active)

/-! ## Dashboard -/

/-- State of the `Dashboard` component. -/
structure Dashboard where
  detections : List Detection
  currentView : String
  selectedDetection : Option Detection
  isViewerFullScreen : Bool
  deriving DecidableEq, Repr

/-- The `useState` initial values of `Dashboard`. -/
def Dashboard.initial : Dashboard :=
  { detections := seedDetections
    currentView := "original"
    selectedDetection := none
    isViewerFullScreen := false }

/-- The `useEffect` of `Dashboard`: with detections present and nothing
selected, the first detection becomes selected. -/
def autoSelect (st : Dashboard) : Dashboard :=
  if 0 < st.detections.length ∧ st.selectedDetection = none then
    { st with selectedDetection := st.detections.head? }
  else st

/-- Handler `handleDetectionSelect`. -/
def handleDetectionSelect (detection : Detection) (st : Dashboard) : Dashboard :=
  if detection.isLasUpload then
    { st with selectedDetection := some detection, currentView := "original" }
  else
    { st with selectedDetection := some detection }

/-- Handler `handleViewChange`. -/
def handleViewChange (view : String) (st : Dashboard) : Dashboard :=
  { st with currentView := view }

/-- The `String.prototype.toLowerCase` of a file name, character by character. -/
def toLowerCase (s : String) : String :=
  String.mk (s.data.map Char.toLower)

/-- The `String.prototype.endsWith` test, on the characters of both strings. -/
def endsWith (s suffix : String) : Bool :=
  suffix.data.isSuffixOf s.data

/-- Expression `Math.max(...detections.map(d => d.id))` for a non-empty list
of natural ids. -/
def maxId (detections : List Detection) : Nat :=
  (detections.map Detection.id).foldl max 0

/-- Local `newDetection` of `handleFileChange`; `now` is `new Date().toISOString()`. -/
def newDetection (detections : List Detection) (fileName now : String) : Detection :=
  { id := if 0 < detections.length then maxId detections + 1 else 1
    type := "Uploaded LAS"
    time := now
    name := fileName
    originalPointCloud := some ("LAS_FILE:" ++ fileName)
    detectionPointCloud := none
    isLasUpload := true }

/-- Handler `handleFileChange`; `file` is the name of `event.target.files[0]`,
absent when no file was chosen. The `alert` of the other branch changes no
state. -/
def handleFileChange (file : Option String) (now : String) (st : Dashboard) : Dashboard :=
  match file with
  | none => st
  | some fileName =>
    if endsWith (toLowerCase fileName) ".las" then
      { st with
        detections := st.detections ++ [newDetection st.detections fileName now]
        selectedDetection := some (newDetection st.detections fileName now)
        currentView := "original" }
    else st

/-- The `disabled` attribute of the Detection and the Both buttons of a card. -/
def viewButtonDisabled (detection : Detection) : Bool :=
  detection.isLasUpload ||
    (match detection.detectionPointCloud with
     | none => true
     | some locator => locator = "")

/-- User actions on the dashboard: a click on the card of a detection, on one
of its three view buttons, or the choice of a file in the upload input. -/
inductive Action where
  | clickCard (detection : Detection)
  | clickOriginal (detection : Detection)
  | clickDetection (detection : Detection)
  | clickBoth (detection : Detection)
  | upload (file : Option String) (now : String)
  deriving DecidableEq, Repr

/-- Whether the action is available: the card is one of the listed detections
and the button is not disabled. -/
def Action.enabled (st : Dashboard) : Action → Bool
  | Action.clickCard d => decide (d ∈ st.detections)
  | Action.clickOriginal d => decide (d ∈ st.detections)
  | Action.clickDetection d => decide (d ∈ st.detections) && !viewButtonDisabled d
  | Action.clickBoth d => decide (d ∈ st.detections) && !viewButtonDisabled d
  | Action.upload _ _ => true

/-- The event handler of an action followed by the `useEffect` of `Dashboard`. -/
def Dashboard.step (st : Dashboard) : Action → Dashboard
  | Action.clickCard d => autoSelect (handleDetectionSelect d st)
  | Action.clickOriginal d =>
    autoSelect (handleViewChange "original" (handleDetectionSelect d st))
  | Action.clickDetection d =>
    autoSelect (handleViewChange "detection" (handleDetectionSelect d st))
  | Action.clickBoth d => autoSelect (handleViewChange "both" (handleDetectionSelect d st))
  | Action.upload file now => autoSelect (handleFileChange file now st)

/-- Runs a sequence of actions; `none` when one of them is not available. -/
def Dashboard.run : Dashboard → List Action → Option Dashboard
  | st, [] => some st
  | st, a :: rest => if a.enabled st then Dashboard.run (st.step a) rest else none

/-- A sequence of uploads, oldest first: each is the file name, if any, and
the time of the upload. -/
def uploads (files : List (Option String × String)) (st : Dashboard) : Dashboard :=
  files.foldl (fun acc f => handleFileChange f.1 f.2 acc) st

/-- Placeholder flag and prefix test agree on every detection of the state. -/
def flagsAgree (st : Dashboard) : Prop :=
  ∀ d ∈ st.detections, d.isLasUpload = isLas (some d)

/-- Invariant of the dashboard: with nothing selected, or with a placeholder
upload selected, the view mode is `original`. -/
def viewInvariant (st : Dashboard) : Prop :=
  (st.selectedDetection = none → st.currentView = "original") ∧
  (∀ d, st.selectedDetection = some d → d.isLasUpload = true → st.currentView = "original")

/-! ## Facts about rounding -/

theorem floor_le_roundHalfEven (t : ℚ) : ⌊t⌋ ≤ roundHalfEven t := by
  unfold roundHalfEven
  split_ifs <;> omega

theorem roundHalfEven_le_floor_add_one (t : ℚ) : roundHalfEven t ≤ ⌊t⌋ + 1 := by
  unfold roundHalfEven
  split_ifs <;> omega

theorem roundHalfEven_intCast (n : ℤ) : roundHalfEven (n : ℚ) = n := by
  unfold roundHalfEven
  simp

theorem roundHalfEven_eq_of_lt (t : ℚ) (m : ℤ) (h1 : (m : ℚ) - 1 / 2 < t)
    (h2 : t < (m : ℚ) + 1 / 2) : roundHalfEven t = m := by
  unfold roundHalfEven
  have hf : ⌊t⌋ = m ∨ ⌊t⌋ = m - 1 := by
    have a1 : m - 1 ≤ ⌊t⌋ := by
      rw [Int.le_floor]; push_cast; linarith
    have a2 : ⌊t⌋ < m + 1 := by
      rw [Int.floor_lt]; push_cast; linarith
    omega
  rcases hf with hf | hf
  · rw [hf]
    have h3 : t - (m : ℚ) < 1 / 2 := by linarith
    rw [if_pos h3]
  · rw [hf]
    have hlt : ¬ (t - ((m - 1 : ℤ) : ℚ) < 1 / 2) := by push_cast; linarith
    have hgt : 1 / 2 < t - ((m - 1 : ℤ) : ℚ) := by push_cast; linarith
    rw [if_neg hlt, if_pos hgt]
    omega

theorem roundHalfEven_half (m : ℤ) :
    roundHalfEven ((m : ℚ) + 1 / 2) = if m % 2 = 0 then m else m + 1 := by
  have hf : ⌊(m : ℚ) + 1 / 2⌋ = m := by
    rw [Int.floor_eq_iff]; constructor <;> linarith
  unfold roundHalfEven
  rw [hf]
  have h1 : ¬ ((m : ℚ) + 1 / 2 - (m : ℚ) < 1 / 2) := by linarith
  have h2 : ¬ (1 / 2 < (m : ℚ) + 1 / 2 - (m : ℚ)) := by linarith
  simp only [h1, h2, if_false]

theorem roundHalfEven_mono {s t : ℚ} (h : s ≤ t) : roundHalfEven s ≤ roundHalfEven t := by
  have hfl : ⌊s⌋ ≤ ⌊t⌋ := Int.floor_mono h
  rcases lt_or_eq_of_le hfl with hlt | heq
  · calc roundHalfEven s ≤ ⌊s⌋ + 1 := roundHalfEven_le_floor_add_one s
      _ ≤ ⌊t⌋ := hlt
      _ ≤ roundHalfEven t := floor_le_roundHalfEven t
  · have hfr : s - (⌊s⌋ : ℚ) ≤ t - (⌊t⌋ : ℚ) := by rw [heq]; linarith
    unfold roundHalfEven
    rw [heq]
    split_ifs <;> first | omega | (exfalso; linarith)

theorem two_zpow_pos (z : ℤ) : (0 : ℚ) < (2 : ℚ) ^ z := by positivity

theorem two_zpow_le {m n : ℤ} (h : m ≤ n) : (2 : ℚ) ^ m ≤ (2 : ℚ) ^ n :=
  zpow_le_zpow_right₀ (by norm_num) h

theorem two_zpow_eq_intCast {d : ℤ} (hd : 0 ≤ d) :
    (2 : ℚ) ^ d = (((2 : ℤ) ^ d.toNat : ℤ) : ℚ) := by
  conv_lhs => rw [← Int.toNat_of_nonneg hd]
  rw [zpow_natCast]
  push_cast
  rfl

theorem log_two_bounds {a : ℚ} (ha : 0 < a) :
    (2 : ℚ) ^ Int.log 2 a ≤ a ∧ a < (2 : ℚ) ^ (Int.log 2 a + 1) := by
  have h1 := Int.zpow_log_le_self (b := 2) (r := a) (by norm_num) ha
  have h2 := Int.lt_zpow_succ_log_self (b := 2) (by norm_num) a
  simpa using And.intro h1 h2

theorem log_two_eq {a : ℚ} {e : ℤ} (h1 : (2 : ℚ) ^ e ≤ a) (h2 : a < (2 : ℚ) ^ (e + 1)) :
    Int.log 2 a = e := by
  have ha : 0 < a := lt_of_lt_of_le (two_zpow_pos e) h1
  have a1 : e ≤ Int.log 2 a := by
    rw [← Int.zpow_le_iff_le_log (b := 2) (by norm_num) ha]
    simpa using h1
  have a2 : Int.log 2 a < e + 1 := by
    rw [← Int.lt_zpow_iff_log_lt (b := 2) (by norm_num) ha]
    simpa using h2
  omega

theorem roundHalfEven_nonneg {t : ℚ} (ht : 0 ≤ t) : 0 ≤ roundHalfEven t :=
  le_trans (Int.floor_nonneg.mpr ht) (floor_le_roundHalfEven t)

theorem roundMagnitude_nonneg (p : ℕ) (emin : ℤ) {a : ℚ} (ha : 0 ≤ a) :
    0 ≤ roundMagnitude p emin a := by
  unfold roundMagnitude
  have h1 : (0 : ℚ) ≤ a / (2 : ℚ) ^ ulpExponent p emin a :=
    div_nonneg ha (le_of_lt (two_zpow_pos _))
  have h2 : (0 : ℚ) ≤ (roundHalfEven (a / (2 : ℚ) ^ ulpExponent p emin a) : ℚ) := by
    exact_mod_cast roundHalfEven_nonneg h1
  exact mul_nonneg h2 (le_of_lt (two_zpow_pos _))

theorem roundMagnitude_zero (p : ℕ) (emin : ℤ) : roundMagnitude p emin 0 = 0 := by
  unfold roundMagnitude
  simp [roundHalfEven_intCast, roundHalfEven]

/-- Upper bound: a positive magnitude rounds to at most the next power of two
(or to at most one unit in the last place). -/
theorem roundMagnitude_le (p : ℕ) (emin : ℤ) {a : ℚ} (ha : 0 < a) :
    roundMagnitude p emin a ≤
      (2 : ℚ) ^ max (Int.log 2 a + 1) (ulpExponent p emin a) := by
  set q := ulpExponent p emin a with hq
  set K := max (Int.log 2 a + 1) q with hK
  have hd : 0 ≤ K - q := by have := le_max_right (Int.log 2 a + 1) q; omega
  have hlt : a / (2 : ℚ) ^ q ≤ (2 : ℚ) ^ (K - q) := by
    rw [div_le_iff₀ (two_zpow_pos q), ← zpow_add₀ (by norm_num : (2 : ℚ) ≠ 0)]
    have : K - q + q = K := by omega
    rw [this]
    exact le_trans (le_of_lt (log_two_bounds ha).2) (two_zpow_le (le_max_left _ _))
  have hr : roundHalfEven (a / (2 : ℚ) ^ q) ≤ (2 : ℤ) ^ (K - q).toNat := by
    rw [two_zpow_eq_intCast hd] at hlt
    have := roundHalfEven_mono hlt
    rwa [roundHalfEven_intCast] at this
  have hr2 : (roundHalfEven (a / (2 : ℚ) ^ q) : ℚ) ≤ (2 : ℚ) ^ (K - q) := by
    rw [two_zpow_eq_intCast hd]
    exact_mod_cast hr
  unfold roundMagnitude
  rw [← hq]
  calc (roundHalfEven (a / (2 : ℚ) ^ q) : ℚ) * (2 : ℚ) ^ q
      ≤ (2 : ℚ) ^ (K - q) * (2 : ℚ) ^ q :=
        mul_le_mul_of_nonneg_right hr2 (le_of_lt (two_zpow_pos q))
    _ = (2 : ℚ) ^ K := by
        rw [← zpow_add₀ (by norm_num : (2 : ℚ) ≠ 0)]
        congr 1
        omega

/-- Lower bound: a positive magnitude rounds to at least the power of two
below it, when that power is at least one unit in the last place. -/
theorem le_roundMagnitude (p : ℕ) (emin : ℤ) {b : ℚ} (hb : 0 < b)
    (hq : ulpExponent p emin b ≤ Int.log 2 b) :
    (2 : ℚ) ^ Int.log 2 b ≤ roundMagnitude p emin b := by
  set q := ulpExponent p emin b with hqd
  have hd : 0 ≤ Int.log 2 b - q := by omega
  have hge : (2 : ℚ) ^ (Int.log 2 b - q) ≤ b / (2 : ℚ) ^ q := by
    rw [le_div_iff₀ (two_zpow_pos q), ← zpow_add₀ (by norm_num : (2 : ℚ) ≠ 0)]
    have : Int.log 2 b - q + q = Int.log 2 b := by omega
    rw [this]
    exact (log_two_bounds hb).1
  have hr : (2 : ℤ) ^ (Int.log 2 b - q).toNat ≤ roundHalfEven (b / (2 : ℚ) ^ q) := by
    rw [two_zpow_eq_intCast hd] at hge
    have := roundHalfEven_mono hge
    rwa [roundHalfEven_intCast] at this
  have hr2 : (2 : ℚ) ^ (Int.log 2 b - q) ≤ (roundHalfEven (b / (2 : ℚ) ^ q) : ℚ) := by
    rw [two_zpow_eq_intCast hd]
    exact_mod_cast hr
  unfold roundMagnitude
  rw [← hqd]
  calc (2 : ℚ) ^ Int.log 2 b = (2 : ℚ) ^ (Int.log 2 b - q) * (2 : ℚ) ^ q := by
        rw [← zpow_add₀ (by norm_num : (2 : ℚ) ≠ 0)]
        congr 1
        omega
    _ ≤ (roundHalfEven (b / (2 : ℚ) ^ q) : ℚ) * (2 : ℚ) ^ q :=
        mul_le_mul_of_nonneg_right hr2 (le_of_lt (two_zpow_pos q))

theorem roundMagnitude_mono (p : ℕ) (emin : ℤ) (hp : 1 ≤ p) {a b : ℚ} (ha : 0 ≤ a)
    (hab : a ≤ b) : roundMagnitude p emin a ≤ roundMagnitude p emin b := by
  rcases eq_or_lt_of_le ha with h0 | hpos
  · rw [← h0, roundMagnitude_zero]
    exact roundMagnitude_nonneg p emin (le_trans ha hab)
  have hb : 0 < b := lt_of_lt_of_le hpos hab
  have hlog : Int.log 2 a ≤ Int.log 2 b := Int.log_mono_right hpos hab
  have hq : ulpExponent p emin a ≤ ulpExponent p emin b := by
    unfold ulpExponent
    exact max_le_max (by omega) (le_refl _)
  rcases eq_or_lt_of_le hq with heq | hlt
  · unfold roundMagnitude
    rw [heq]
    have h1 : a / (2 : ℚ) ^ ulpExponent p emin b ≤ b / (2 : ℚ) ^ ulpExponent p emin b :=
      div_le_div_of_nonneg_right hab (le_of_lt (two_zpow_pos _))
    have h2 := roundHalfEven_mono h1
    have h3 : (roundHalfEven (a / (2 : ℚ) ^ ulpExponent p emin b) : ℚ) ≤
        (roundHalfEven (b / (2 : ℚ) ^ ulpExponent p emin b) : ℚ) := by exact_mod_cast h2
    exact mul_le_mul_of_nonneg_right h3 (le_of_lt (two_zpow_pos _))
  · have hqb : ulpExponent p emin b = Int.log 2 b - ((p : ℤ) - 1) := by
      unfold ulpExponent at hlt ⊢
      have h1 : emin ≤ max (Int.log 2 a - ((p : ℤ) - 1)) emin := le_max_right _ _
      rcases max_cases (Int.log 2 b - ((p : ℤ) - 1)) emin with ⟨h, _⟩ | ⟨h, _⟩
      · exact h
      · omega
    have hqa : Int.log 2 a - ((p : ℤ) - 1) ≤ ulpExponent p emin a := le_max_left _ _
    have hp1 : (1 : ℤ) ≤ (p : ℤ) := by exact_mod_cast hp
    have hK : max (Int.log 2 a + 1) (ulpExponent p emin a) ≤ Int.log 2 b :=
      max_le (by omega) (by omega)
    calc roundMagnitude p emin a
        ≤ (2 : ℚ) ^ max (Int.log 2 a + 1) (ulpExponent p emin a) := roundMagnitude_le p emin hpos
      _ ≤ (2 : ℚ) ^ Int.log 2 b := two_zpow_le hK
      _ ≤ roundMagnitude p emin b := le_roundMagnitude p emin hb (by omega)

theorem roundBinary_mono (p : ℕ) (emin : ℤ) (hp : 1 ≤ p) {x y : ℚ} (h : x ≤ y) :
    roundBinary p emin x ≤ roundBinary p emin y := by
  unfold roundBinary
  by_cases hx : x < 0
  · by_cases hy : y < 0
    · rw [if_pos hx, if_pos hy]
      exact neg_le_neg (roundMagnitude_mono p emin hp (by linarith) (by linarith))
    · rw [if_pos hx, if_neg hy]
      have h1 := roundMagnitude_nonneg p emin (a := -x) (by linarith)
      have h2 := roundMagnitude_nonneg p emin (a := y) (by linarith)
      linarith
  · have hy : ¬ y < 0 := by linarith
    rw [if_neg hx, if_neg hy]
    exact roundMagnitude_mono p emin hp (by linarith) h

theorem roundBinary_neg (p : ℕ) (emin : ℤ) (x : ℚ) :
    roundBinary p emin (-x) = -roundBinary p emin x := by
  unfold roundBinary
  rcases lt_trichotomy x 0 with h | h | h
  · have h2 : ¬ (-x < 0) := by linarith
    rw [if_pos h, if_neg h2, neg_neg]
  · subst h
    simp [roundMagnitude_zero]
  · have h1 : -x < 0 := by linarith
    have h2 : ¬ (x < 0) := by linarith
    rw [if_pos h1, if_neg h2, neg_neg]

/-- Evaluation of the rounding at a positive magnitude, from its binade
`[2^e, 2^(e+1))` and the integer nearest to the scaled magnitude. -/
theorem roundBinary_eq (p : ℕ) (emin : ℤ) (a : ℚ) (e q m : ℤ)
    (h1 : (2 : ℚ) ^ e ≤ a) (h2 : a < (2 : ℚ) ^ (e + 1))
    (hq : max (e - ((p : ℤ) - 1)) emin = q)
    (hm : roundHalfEven (a / (2 : ℚ) ^ q) = m) :
    roundBinary p emin a = (m : ℚ) * (2 : ℚ) ^ q := by
  have ha : 0 < a := lt_of_lt_of_le (two_zpow_pos e) h1
  have hlog := log_two_eq h1 h2
  have hu : ulpExponent p emin a = q := by unfold ulpExponent; rw [hlog, hq]
  unfold roundBinary roundMagnitude
  rw [if_neg (by linarith), hu, hm]

theorem toDouble_eq (a : ℚ) (e q m : ℤ) (h1 : (2 : ℚ) ^ e ≤ a) (h2 : a < (2 : ℚ) ^ (e + 1))
    (hq : max (e - 52) (-1074) = q) (hm : roundHalfEven (a / (2 : ℚ) ^ q) = m) :
    toDouble a = (m : ℚ) * (2 : ℚ) ^ q :=
  roundBinary_eq 53 (-1074) a e q m h1 h2 (by simpa using hq) hm

theorem toFloat32_eq (a : ℚ) (e q m : ℤ) (h1 : (2 : ℚ) ^ e ≤ a) (h2 : a < (2 : ℚ) ^ (e + 1))
    (hq : max (e - 23) (-149) = q) (hm : roundHalfEven (a / (2 : ℚ) ^ q) = m) :
    toFloat32 a = (m : ℚ) * (2 : ℚ) ^ q :=
  roundBinary_eq 24 (-149) a e q m h1 h2 (by simpa using hq) hm

theorem toDouble_mono {x y : ℚ} (h : x ≤ y) : toDouble x ≤ toDouble y :=
  roundBinary_mono 53 (-1074) (by norm_num) h

theorem toFloat32_mono {x y : ℚ} (h : x ≤ y) : toFloat32 x ≤ toFloat32 y :=
  roundBinary_mono 24 (-149) (by norm_num) h

theorem toDouble_neg (x : ℚ) : toDouble (-x) = -toDouble x :=
  roundBinary_neg 53 (-1074) x

theorem toFloat32_neg (x : ℚ) : toFloat32 (-x) = -toFloat32 x :=
  roundBinary_neg 24 (-149) x

theorem toDouble_zero : toDouble 0 = 0 := by
  simp [toDouble, roundBinary, roundMagnitude_zero]

theorem toFloat32_zero : toFloat32 0 = 0 := by
  simp [toFloat32, roundBinary, roundMagnitude_zero]

/-- A value between two values that the rounding leaves alone stays between
them. -/
theorem toDouble_mem_Icc {x lo hi : ℚ} (hlo : toDouble lo = lo) (hhi : toDouble hi = hi)
    (h1 : lo ≤ x) (h2 : x ≤ hi) : lo ≤ toDouble x ∧ toDouble x ≤ hi :=
  ⟨hlo ▸ toDouble_mono h1, hhi ▸ toDouble_mono h2⟩

theorem toFloat32_mem_Icc {x lo hi : ℚ} (hlo : toFloat32 lo = lo) (hhi : toFloat32 hi = hi)
    (h1 : lo ≤ x) (h2 : x ≤ hi) : lo ≤ toFloat32 x ∧ toFloat32 x ≤ hi :=
  ⟨hlo ▸ toFloat32_mono h1, hhi ▸ toFloat32_mono h2⟩

/-! ### Values of the rounding at the numbers the development uses -/

theorem toDouble_half (x : ℚ) (hx : x = 1 / 2 ^ 1) :
    toDouble x = 1 / 2 ^ 1 := by
  subst hx
  rw [toDouble_eq (1 / 2 ^ 1) (-1) (-53) 4503599627370496
    (by norm_num) (by norm_num) (by decide)
    (by rw [← roundHalfEven_intCast 4503599627370496]; congr 1; norm_num)]
  norm_num

theorem toDouble_5000 (x : ℚ) (hx : x = 5000) :
    toDouble x = 5000 := by
  subst hx
  rw [toDouble_eq (5000) 12 (-40) 5497558138880000
    (by norm_num) (by norm_num) (by decide)
    (by rw [← roundHalfEven_intCast 5497558138880000]; congr 1; norm_num)]
  norm_num

theorem toDouble_7500 (x : ℚ) (hx : x = 7500) :
    toDouble x = 7500 := by
  subst hx
  rw [toDouble_eq (7500) 12 (-40) 8246337208320000
    (by norm_num) (by norm_num) (by decide)
    (by rw [← roundHalfEven_intCast 8246337208320000]; congr 1; norm_num)]
  norm_num

theorem toDouble_6000 (x : ℚ) (hx : x = 6000) :
    toDouble x = 6000 := by
  subst hx
  rw [toDouble_eq (6000) 12 (-40) 6597069766656000
    (by norm_num) (by norm_num) (by decide)
    (by rw [← roundHalfEven_intCast 6597069766656000]; congr 1; norm_num)]
  norm_num

theorem toDouble_literal_0_0001 (x : ℚ) (hx : x = 1 / 10000) :
    toDouble x = 7378697629483821 / 2 ^ 66 := by
  subst hx
  rw [toDouble_eq (1 / 10000) (-14) (-66) 7378697629483821
    (by norm_num) (by norm_num) (by decide)
    (roundHalfEven_eq_of_lt _ _ (by norm_num) (by norm_num))]
  norm_num

theorem toDouble_5000_mul_0_0001 (x : ℚ) (hx : x = 4611686018427388125 / 2 ^ 63) :
    toDouble x = 1 / 2 ^ 1 := by
  subst hx
  rw [toDouble_eq (4611686018427388125 / 2 ^ 63) (-1) (-53) 4503599627370496
    (by norm_num) (by norm_num) (by decide)
    (roundHalfEven_eq_of_lt _ _ (by norm_num) (by norm_num))]
  norm_num

theorem toDouble_literal_0_0102 (x : ℚ) (hx : x = 51 / 5000) :
    toDouble x = 734987459186865 / 2 ^ 56 := by
  subst hx
  rw [toDouble_eq (51 / 5000) (-7) (-59) 5879899673494920
    (by norm_num) (by norm_num) (by decide)
    (roundHalfEven_eq_of_lt _ _ (by norm_num) (by norm_num))]
  norm_num

theorem toDouble_5000_mul_0_0102 (x : ℚ) (hx : x = 459367161991790625 / 2 ^ 53) :
    toDouble x = 7177611906121729 / 2 ^ 47 := by
  subst hx
  rw [toDouble_eq (459367161991790625 / 2 ^ 53) 5 (-47) 7177611906121729
    (by norm_num) (by norm_num) (by decide)
    (roundHalfEven_eq_of_lt _ _ (by norm_num) (by norm_num))]
  norm_num

theorem toDouble_literal_0_0002 (x : ℚ) (hx : x = 1 / 5000) :
    toDouble x = 7378697629483821 / 2 ^ 65 := by
  subst hx
  rw [toDouble_eq (1 / 5000) (-13) (-65) 7378697629483821
    (by norm_num) (by norm_num) (by decide)
    (roundHalfEven_eq_of_lt _ _ (by norm_num) (by norm_num))]
  norm_num

theorem toDouble_5000_mul_0_0002 (x : ℚ) (hx : x = 4611686018427388125 / 2 ^ 62) :
    toDouble x = 1 := by
  subst hx
  rw [toDouble_eq (4611686018427388125 / 2 ^ 62) 0 (-52) 4503599627370496
    (by norm_num) (by norm_num) (by decide)
    (roundHalfEven_eq_of_lt _ _ (by norm_num) (by norm_num))]
  norm_num

theorem toDouble_5 (x : ℚ) (hx : x = 5) :
    toDouble x = 5 := by
  subst hx
  rw [toDouble_eq (5) 2 (-50) 5629499534213120
    (by norm_num) (by norm_num) (by decide)
    (by rw [← roundHalfEven_intCast 5629499534213120]; congr 1; norm_num)]
  norm_num

theorem toDouble_4 (x : ℚ) (hx : x = 4) :
    toDouble x = 4 := by
  subst hx
  rw [toDouble_eq (4) 2 (-50) 4503599627370496
    (by norm_num) (by norm_num) (by decide)
    (by rw [← roundHalfEven_intCast 4503599627370496]; congr 1; norm_num)]
  norm_num

theorem toFloat32_5 (x : ℚ) (hx : x = 5) :
    toFloat32 x = 5 := by
  subst hx
  rw [toFloat32_eq (5) 2 (-21) 10485760
    (by norm_num) (by norm_num) (by decide)
    (by rw [← roundHalfEven_intCast 10485760]; congr 1; norm_num)]
  norm_num

theorem toFloat32_4 (x : ℚ) (hx : x = 4) :
    toFloat32 x = 4 := by
  subst hx
  rw [toFloat32_eq (4) 2 (-21) 8388608
    (by norm_num) (by norm_num) (by decide)
    (by rw [← roundHalfEven_intCast 8388608]; congr 1; norm_num)]
  norm_num

theorem toDouble_literal_0_1 (x : ℚ) (hx : x = 1 / 10) :
    toDouble x = 3602879701896397 / 2 ^ 55 := by
  subst hx
  rw [toDouble_eq (1 / 10) (-4) (-56) 7205759403792794
    (by norm_num) (by norm_num) (by decide)
    (roundHalfEven_eq_of_lt _ _ (by norm_num) (by norm_num))]
  norm_num

theorem toDouble_half_of_0_1 (x : ℚ) (hx : x = 3602879701896397 / 2 ^ 56) :
    toDouble x = 3602879701896397 / 2 ^ 56 := by
  subst hx
  rw [toDouble_eq (3602879701896397 / 2 ^ 56) (-5) (-57) 7205759403792794
    (by norm_num) (by norm_num) (by decide)
    (by rw [← roundHalfEven_intCast 7205759403792794]; congr 1; norm_num)]
  norm_num

theorem toFloat32_half_of_0_1 (x : ℚ) (hx : x = 3602879701896397 / 2 ^ 56) :
    toFloat32 x = 13421773 / 2 ^ 28 := by
  subst hx
  rw [toFloat32_eq (3602879701896397 / 2 ^ 56) (-5) (-28) 13421773
    (by norm_num) (by norm_num) (by decide)
    (roundHalfEven_eq_of_lt _ _ (by norm_num) (by norm_num))]
  norm_num

theorem toDouble_literal_0_005 (x : ℚ) (hx : x = 1 / 200) :
    toDouble x = 5764607523034235 / 2 ^ 60 := by
  subst hx
  rw [toDouble_eq (1 / 200) (-8) (-60) 5764607523034235
    (by norm_num) (by norm_num) (by decide)
    (roundHalfEven_eq_of_lt _ _ (by norm_num) (by norm_num))]
  norm_num

theorem toDouble_10 (x : ℚ) (hx : x = 10) :
    toDouble x = 10 := by
  subst hx
  rw [toDouble_eq (10) 3 (-49) 5629499534213120
    (by norm_num) (by norm_num) (by decide)
    (by rw [← roundHalfEven_intCast 5629499534213120]; congr 1; norm_num)]
  norm_num

theorem toDouble_20 (x : ℚ) (hx : x = 20) :
    toDouble x = 20 := by
  subst hx
  rw [toDouble_eq (20) 4 (-48) 5629499534213120
    (by norm_num) (by norm_num) (by decide)
    (by rw [← roundHalfEven_intCast 5629499534213120]; congr 1; norm_num)]
  norm_num

theorem toDouble_10_mul_0_005 (x : ℚ) (hx : x = 28823037615171175 / 2 ^ 59) :
    toDouble x = 3602879701896397 / 2 ^ 56 := by
  subst hx
  rw [toDouble_eq (28823037615171175 / 2 ^ 59) (-5) (-57) 7205759403792794
    (by norm_num) (by norm_num) (by decide)
    (roundHalfEven_eq_of_lt _ _ (by norm_num) (by norm_num))]
  norm_num

theorem toDouble_20_mul_0_005 (x : ℚ) (hx : x = 28823037615171175 / 2 ^ 58) :
    toDouble x = 3602879701896397 / 2 ^ 55 := by
  subst hx
  rw [toDouble_eq (28823037615171175 / 2 ^ 58) (-4) (-56) 7205759403792794
    (by norm_num) (by norm_num) (by decide)
    (roundHalfEven_eq_of_lt _ _ (by norm_num) (by norm_num))]
  norm_num

theorem toDouble_inc1_add_inc2 (x : ℚ) (hx : x = 10808639105689191 / 2 ^ 56) :
    toDouble x = 1351079888211149 / 2 ^ 53 := by
  subst hx
  rw [toDouble_eq (10808639105689191 / 2 ^ 56) (-3) (-55) 5404319552844596
    (by norm_num) (by norm_num) (by decide)
    (by rw [show (10808639105689191 / 2 ^ 56 : ℚ) / (2 : ℚ) ^ (-55 : ℤ) = ((5404319552844595 : ℤ) : ℚ) + 1 / 2 by norm_num, roundHalfEven_half]; decide)]
  norm_num

theorem toDouble_literal_1_2 (x : ℚ) (hx : x = 6 / 5) :
    toDouble x = 5404319552844595 / 2 ^ 52 := by
  subst hx
  rw [toDouble_eq (6 / 5) 0 (-52) 5404319552844595
    (by norm_num) (by norm_num) (by decide)
    (roundHalfEven_eq_of_lt _ _ (by norm_num) (by norm_num))]
  norm_num

theorem toDouble_5000_mul_1_2 (x : ℚ) (hx : x = 3377699720527871875 / 2 ^ 49) :
    toDouble x = 6000 := by
  subst hx
  rw [toDouble_eq (3377699720527871875 / 2 ^ 49) 12 (-40) 6597069766656000
    (by norm_num) (by norm_num) (by decide)
    (roundHalfEven_eq_of_lt _ _ (by norm_num) (by norm_num))]
  norm_num

theorem toDouble_30_mul_0_005 (x : ℚ) (hx : x = 86469112845513525 / 2 ^ 59) :
    toDouble x = 5404319552844595 / 2 ^ 55 := by
  subst hx
  rw [toDouble_eq (86469112845513525 / 2 ^ 59) (-3) (-55) 5404319552844595
    (by norm_num) (by norm_num) (by decide)
    (roundHalfEven_eq_of_lt _ _ (by norm_num) (by norm_num))]
  norm_num

/-! ## Basic facts about the session constructor and the effect -/

theorem initThreeScene_none (rand : Nat → ℚ) (k : Nat)
    (configs : List (Option PointCloudConfig)) :
    initThreeScene rand k none configs = (none, k) := rfl

theorem initThreeScene_some_isSome (rand : Nat → ℚ) (k : Nat) (c : Container)
    (configs : List (Option PointCloudConfig)) :
    (initThreeScene rand k (some c) configs).1.isSome = true := rfl

theorem initSlot_fst (rand : Nat → ℚ) (k : Nat) (slot : Slot) (ref : Option Container)
    (configs : List (Option PointCloudConfig)) (trace : List Call) :
    (initSlot rand k slot ref configs trace).1 = (initThreeScene rand k ref configs).1 := by
  cases ref <;> rfl

theorem initSlot_randPos (rand : Nat → ℚ) (k : Nat) (slot : Slot) (ref : Option Container)
    (configs : List (Option PointCloudConfig)) (trace : List Call) :
    (initSlot rand k slot ref configs trace).2.1 = (initThreeScene rand k ref configs).2 := by
  cases ref <;> rfl

theorem initSlot_trace (rand : Nat → ℚ) (k : Nat) (slot : Slot) (ref : Option Container)
    (configs : List (Option PointCloudConfig)) (trace : List Call) :
    (initSlot rand k slot ref configs trace).2.2 =
      trace ++ (if ref.isSome then [Call.initThreeScene slot] else []) := by
  cases ref <;> simp [initSlot]

theorem cleanupSlot_trace (slot : Slot) (tracked : Option Session) (trace : List Call) :
    (cleanupSlot slot tracked trace).2 =
      trace ++ (if tracked.isSome then [Call.cleanup slot] else []) := by
  cases tracked <;> simp [cleanupSlot]

theorem createPointCloud_position (rand : Nat → ℚ) (k color : Nat) (size spread density : ℚ) :
    (createPointCloud rand k color size spread density).1.position = origin := rfl

theorem originalConfig_offsetX (d : Detection) :
    ∃ cfg, originalConfig (some d) = some cfg ∧ cfg.offsetX = none :=
  ⟨_, rfl, rfl⟩

theorem detectionConfig_offsetX (d : Detection) :
    ∃ cfg, detectionConfig (some d) = some cfg ∧ cfg.offsetX = none :=
  ⟨_, rfl, rfl⟩

/-- In combined mode with the main surface mounted the effect publishes one
session, in `main`, whose group holds two nodes, both at the origin. -/
theorem reconcile_combined_nodes (rand : Nat → ℚ) (k : Nat) (prev : ThreeObjects)
    (d : Detection) (m : Container) (o1 o2 : Option Container) :
    ∃ (s : Session) (p q : Points),
      activeInstances (reconcile rand k ⟨some m, o1, o2⟩ prev (some d) "both" true).threeObjects
        = [s] ∧
      s.pointCloudGroup.children = [p, q] ∧ p.position = origin ∧ q.position = origin := by
  obtain ⟨a, ha, hao⟩ := originalConfig_offsetX d
  obtain ⟨b, hb, hbo⟩ := detectionConfig_offsetX d
  simp only [reconcile, initSlot, initThreeScene, activeInstances, ha, hb,
    initThreeScene.forEach, hao, hbo, List.nil_append, List.cons_append, if_true,
    List.filterMap_cons, List.filterMap_nil, id]
  exact ⟨_, _, _, rfl, rfl, rfl, rfl⟩

theorem reconcile_trace (rand : Nat → ℚ) (k : Nat) (refs : Refs) (prev : ThreeObjects)
    (detection : Option Detection) (viewMode : String) (flag : Bool) :
    ∃ creates : List Call,
      (reconcile rand k refs prev detection viewMode flag).trace =
        ((if prev.main.isSome then [Call.cleanup Slot.main] else []) ++
          (if prev.top.isSome then [Call.cleanup Slot.top] else []) ++
          (if prev.bottom.isSome then [Call.cleanup Slot.bottom] else [])) ++ creates ∧
      ∀ c ∈ creates, c.isInit = true := by
  cases detection with
  | none =>
    refine ⟨[], ?_, by simp⟩
    simp [reconcile, cleanupSlot_trace]
  | some d =>
    by_cases h1 : viewMode = "both"
    · cases flag
      · refine ⟨(if refs.topContainerRef.isSome then [Call.initThreeScene Slot.top] else []) ++
          (if refs.bottomContainerRef.isSome then [Call.initThreeScene Slot.bottom] else []),
          ?_, ?_⟩
        · simp [reconcile, h1, cleanupSlot_trace, initSlot_trace]
        · intro c hc
          rcases List.mem_append.mp hc with h | h <;> split_ifs at h <;> simp_all [Call.isInit]
      · refine ⟨(if refs.mainContainerRef.isSome then [Call.initThreeScene Slot.main] else []),
          ?_, ?_⟩
        · simp [reconcile, h1, cleanupSlot_trace, initSlot_trace]
        · intro c hc
          split_ifs at hc <;> simp_all [Call.isInit]
    · by_cases h2 : viewMode = "original"
      · refine ⟨(if refs.mainContainerRef.isSome then [Call.initThreeScene Slot.main] else []),
          ?_, ?_⟩
        · simp [reconcile, h2, cleanupSlot_trace, initSlot_trace]
        · intro c hc
          split_ifs at hc <;> simp_all [Call.isInit]
      · by_cases h3 : viewMode = "detection"
        · refine ⟨(if refs.mainContainerRef.isSome then [Call.initThreeScene Slot.main] else []),
            ?_, ?_⟩
          · simp [reconcile, h3, cleanupSlot_trace, initSlot_trace]
          · intro c hc
            split_ifs at hc <;> simp_all [Call.isInit]
        · refine ⟨[], ?_, by simp⟩
          simp [reconcile, h1, h2, h3, cleanupSlot_trace]

theorem handleWheel_bounds (deltaY : ℚ) (s : Session) :
    1 ≤ (handleWheel deltaY s).camera.position.z ∧
      (handleWheel deltaY s).camera.position.z ≤ 100 := by
  constructor
  · exact le_max_left _ _
  · exact max_le (by norm_num) (min_le_left _ _)

theorem wheelEvents_bounds (deltas : List ℚ) :
    ∀ s : Session, 1 ≤ s.camera.position.z ∧ s.camera.position.z ≤ 100 →
      1 ≤ (wheelEvents deltas s).camera.position.z ∧
        (wheelEvents deltas s).camera.position.z ≤ 100 := by
  induction deltas with
  | nil => intro s h; exact h
  | cons d rest ih =>
    intro s _
    exact ih (handleWheel d s) (handleWheel_bounds d s)

/-- Number of coordinates the loop leaves in the buffer: three for each
natural number below `numPoints`, counted from `i`. -/
theorem createPointCloud_loop_length (rand : Nat → ℚ) (spread numPoints : ℚ) :
    ∀ (n i k : Nat) (vertices : List ℚ), ⌈numPoints⌉₊ - i = n →
      (createPointCloud.loop rand spread numPoints i k vertices).1.length =
        vertices.length + 3 * n := by
  intro n
  induction n with
  | zero =>
    intro i k vertices h
    have hi : ¬ ((i : ℚ) < numPoints) := by
      intro hlt
      have := Nat.lt_ceil.mpr hlt
      omega
    rw [createPointCloud.loop]
    simp [hi]
  | succ n ih =>
    intro i k vertices h
    have hi : (i : ℚ) < numPoints := Nat.lt_ceil.mp (by omega)
    rw [createPointCloud.loop]
    simp only [hi, if_true]
    rw [ih (i + 1) (k + 3) _ (by omega)]
    simp only [List.length_append, List.length_cons, List.length_nil]
    omega

/-- The loop only appends to the array. -/
theorem createPointCloud_loop_prefix (rand : Nat → ℚ) (spread numPoints : ℚ) :
    ∀ (n i k : Nat) (vertices : List ℚ), ⌈numPoints⌉₊ - i = n →
      ∃ pushed, (createPointCloud.loop rand spread numPoints i k vertices).1 =
        vertices ++ pushed := by
  intro n
  induction n with
  | zero =>
    intro i k vertices h
    have hi : ¬ ((i : ℚ) < numPoints) := by
      intro hlt
      have := Nat.lt_ceil.mpr hlt
      omega
    rw [createPointCloud.loop]
    exact ⟨[], by simp [hi]⟩
  | succ n ih =>
    intro i k vertices h
    have hi : (i : ℚ) < numPoints := Nat.lt_ceil.mp (by omega)
    rw [createPointCloud.loop]
    simp only [hi, if_true]
    obtain ⟨pushed, hp⟩ := ih (i + 1) (k + 3) (vertices ++
      [toDouble (toDouble (rand k - 1 / 2) * spread),
        toDouble (toDouble (rand (k + 1) - 1 / 2) * spread),
        toDouble (toDouble (rand (k + 2) - 1 / 2) * spread)]) (by omega)
    exact ⟨[toDouble (toDouble (rand k - 1 / 2) * spread),
      toDouble (toDouble (rand (k + 1) - 1 / 2) * spread),
      toDouble (toDouble (rand (k + 2) - 1 / 2) * spread)] ++ pushed,
      by rw [hp, List.append_assoc]⟩

/-- Every coordinate the loop pushes is the double
`(draw - 0.5) * spread` for a draw of the random stream, so a property of all
such values holds of the array. -/
theorem createPointCloud_loop_forall (rand : Nat → ℚ) (spread numPoints : ℚ) (P : ℚ → Prop)
    (hP : ∀ j, P (toDouble (toDouble (rand j - 1 / 2) * spread))) :
    ∀ (n i k : Nat) (vertices : List ℚ), ⌈numPoints⌉₊ - i = n →
      (∀ v ∈ vertices, P v) →
      ∀ v ∈ (createPointCloud.loop rand spread numPoints i k vertices).1, P v := by
  intro n
  induction n with
  | zero =>
    intro i k vertices h hv
    have hi : ¬ ((i : ℚ) < numPoints) := by
      intro hlt
      have := Nat.lt_ceil.mpr hlt
      omega
    rw [createPointCloud.loop]
    simpa [hi] using hv
  | succ n ih =>
    intro i k vertices h hv
    have hi : (i : ℚ) < numPoints := Nat.lt_ceil.mp (by omega)
    rw [createPointCloud.loop]
    simp only [hi, if_true]
    apply ih (i + 1) (k + 3) _ (by omega)
    intro v hmem
    rcases List.mem_append.mp hmem with h1 | h1
    · exact hv v h1
    · simp only [List.mem_cons, List.mem_singleton, List.not_mem_nil, or_false] at h1
      rcases h1 with rfl | rfl | rfl
      · exact hP k
      · exact hP (k + 1)
      · exact hP (k + 2)

theorem createPointCloud_vertices_length (rand : Nat → ℚ) (k color : Nat)
    (size spread density : ℚ) :
    (createPointCloud rand k color size spread density).1.vertices.length =
      3 * ⌈toDouble (5000 * density)⌉₊ := by
  have h := createPointCloud_loop_length rand spread (toDouble (5000 * density))
    ⌈toDouble (5000 * density)⌉₊ 0 k [] (by omega)
  simpa [createPointCloud] using h

theorem createPointCloud_vertices_forall (rand : Nat → ℚ) (k color : Nat)
    (size spread density : ℚ) (P : ℚ → Prop)
    (hP : ∀ j, P (toFloat32 (toDouble (toDouble (rand j - 1 / 2) * spread)))) :
    ∀ v ∈ (createPointCloud rand k color size spread density).1.vertices, P v := by
  have h := createPointCloud_loop_forall rand spread (toDouble (5000 * density))
    (fun x => P (toFloat32 x)) hP ⌈toDouble (5000 * density)⌉₊ 0 k [] (by omega) (by simp)
  intro v hv
  simp only [createPointCloud, List.mem_map] at hv
  obtain ⟨x, hx, rfl⟩ := hv
  exact h x hx

/-- With at least one iteration, the buffer holds the first coordinate the
loop computes. -/
theorem createPointCloud_first_coordinate (rand : Nat → ℚ) (k color : Nat)
    (size spread density : ℚ) (h : 0 < toDouble (5000 * density)) :
    toFloat32 (toDouble (toDouble (rand k - 1 / 2) * spread)) ∈
      (createPointCloud rand k color size spread density).1.vertices := by
  simp only [createPointCloud, List.mem_map]
  refine ⟨_, ?_, rfl⟩
  rw [createPointCloud.loop]
  have h0 : ((0 : Nat) : ℚ) < toDouble (5000 * density) := by simpa using h
  simp only [h0, if_true]
  obtain ⟨pushed, hp⟩ := createPointCloud_loop_prefix rand spread (toDouble (5000 * density))
    (⌈toDouble (5000 * density)⌉₊ - (0 + 1)) (0 + 1) (k + 3)
    ([] ++ [toDouble (toDouble (rand k - 1 / 2) * spread),
      toDouble (toDouble (rand (k + 1) - 1 / 2) * spread),
      toDouble (toDouble (rand (k + 2) - 1 / 2) * spread)]) rfl
  rw [hp]
  simp

theorem forEach_children_length (rand : Nat → ℚ) :
    ∀ (configs : List (Option PointCloudConfig)) (k : Nat) (children : List Points),
      (initThreeScene.forEach rand k configs children).1.length =
        children.length + (configs.filterMap id).length := by
  intro configs
  induction configs with
  | nil => intro k children; simp [initThreeScene.forEach]
  | cons c rest ih =>
    intro k children
    cases c with
    | none => simpa [initThreeScene.forEach] using ih k children
    | some config =>
      simp only [initThreeScene.forEach]
      rw [ih]
      simp only [List.length_append, List.length_cons, List.length_nil, List.filterMap_cons, id]
      omega

theorem cleanup_loop_spec :
    ∀ (children released : List Points),
      cleanup.loop children released = ([], released ++ children.map Points.released) := by
  intro children
  induction children with
  | nil => intro released; simp [cleanup.loop]
  | cons child rest ih =>
    intro released
    simp only [cleanup.loop]
    rw [ih]
    simp [Points.released]

theorem handleMouseMove_dragging (x y : ℚ) (s : Session) (h : s.isDragging = true) :
    (handleMouseMove x y s).isDragging = true ∧
    (handleMouseMove x y s).previousMousePosition = (x, y) ∧
    (handleMouseMove x y s).pointCloudGroup.rotationY =
      toDouble (s.pointCloudGroup.rotationY +
        toDouble (toDouble (x - s.previousMousePosition.1) * toDouble (1 / 200))) ∧
    (handleMouseMove x y s).pointCloudGroup.rotationX =
      toDouble (s.pointCloudGroup.rotationX +
        toDouble (toDouble (y - s.previousMousePosition.2) * toDouble (1 / 200))) := by
  simp [handleMouseMove, h]

theorem mouseMoves_dragging :
    ∀ (moves : List (ℚ × ℚ)) (s : Session), s.isDragging = true →
      (mouseMoves moves s).pointCloudGroup.rotationY =
        accumulateRotation s.pointCloudGroup.rotationY s.previousMousePosition.1
          (moves.map Prod.fst) ∧
      (mouseMoves moves s).pointCloudGroup.rotationX =
        accumulateRotation s.pointCloudGroup.rotationX s.previousMousePosition.2
          (moves.map Prod.snd) := by
  intro moves
  induction moves with
  | nil => intro s _; simp [mouseMoves, accumulateRotation]
  | cons p rest ih =>
    intro s hs
    obtain ⟨h1, h2, h3, h4⟩ := handleMouseMove_dragging p.1 p.2 s hs
    have := ih (handleMouseMove p.1 p.2 s) h1
    simp only [mouseMoves, List.foldl_cons, List.map_cons, accumulateRotation] at this ⊢
    rw [h2, h3, h4] at this
    exact this

theorem mouseMoves_idle :
    ∀ (moves : List (ℚ × ℚ)) (s : Session), s.isDragging = false → mouseMoves moves s = s := by
  intro moves
  induction moves with
  | nil => intro s _; rfl
  | cons p rest ih =>
    intro s hs
    have h : handleMouseMove p.1 p.2 s = s := by simp [handleMouseMove, hs]
    simp only [mouseMoves, List.foldl_cons, h]
    exact ih s hs

/-! ## Facts about the render loop -/

theorem initThreeScene_live (rand : Nat → ℚ) (k : Nat) (ref : Option Container)
    (configs : List (Option PointCloudConfig)) (s : Session)
    (h : (initThreeScene rand k ref configs).1 = some s) : s.renderer.disposed = false := by
  cases ref with
  | none => simp [initThreeScene] at h
  | some c =>
    simp only [initThreeScene, Option.some.injEq] at h
    subst h
    rfl

theorem reconcile_published_live (rand : Nat → ℚ) (k : Nat) (refs : Refs) (prev : ThreeObjects)
    (detection : Option Detection) (viewMode : String) (flag : Bool) (slot : Slot)
    (s : Session)
    (h : (reconcile rand k refs prev detection viewMode flag).threeObjects.get slot = some s) :
    s.renderer.disposed = false := by
  cases detection with
  | none => cases slot <;> simp [reconcile, ThreeObjects.get] at h
  | some d =>
    by_cases h1 : viewMode = "both"
    · cases flag <;> cases slot <;>
        simp [reconcile, h1, ThreeObjects.get, initSlot_fst] at h <;>
        exact initThreeScene_live _ _ _ _ _ h
    · by_cases h2 : viewMode = "original"
      · cases slot <;> simp [reconcile, h2, ThreeObjects.get, initSlot_fst] at h
        exact initThreeScene_live _ _ _ _ _ h
      · by_cases h3 : viewMode = "detection"
        · cases slot <;> simp [reconcile, h3, ThreeObjects.get, initSlot_fst] at h
          exact initThreeScene_live _ _ _ _ _ h
        · cases slot <;> simp [reconcile, h1, h2, h3, ThreeObjects.get] at h

theorem initial_sound : Viewer.Sound Viewer.initial := by
  constructor
  · intro h hh
    simp [Viewer.published, Viewer.initial, Handles.active] at hh
  · intro _
    rfl

theorem runEffect_sound (rand : Nat → ℚ) (refs : Refs) (detection : Option Detection)
    (viewMode : String) (flag : Bool) (v : Viewer) :
    Viewer.Sound (v.runEffect rand refs detection viewMode flag) := by
  constructor
  · intro h hh s hs
    have hlive := reconcile_published_live rand v.randPos refs
      { main := v.deref v.threeObjects.main
        top := v.deref v.threeObjects.top
        bottom := v.deref v.threeObjects.bottom } detection viewMode flag
    simp only [Viewer.published, Viewer.runEffect, Option.getD_some, Handles.active,
      List.mem_filterMap, List.mem_cons, List.mem_singleton, List.not_mem_nil, or_false,
      id] at hh
    obtain ⟨a, ha, rfl⟩ := hh
    simp only [Viewer.runEffect] at hs
    rcases ha with ha | ha | ha
    · obtain ⟨x, hx, hx2⟩ := Option.map_eq_some'.mp ha.symm
      have : h = v.next := hx2.symm
      subst this
      simp only [if_true] at hs
      exact hlive Slot.main s hs
    · obtain ⟨x, hx, hx2⟩ := Option.map_eq_some'.mp ha.symm
      have : h = v.next + 1 := hx2.symm
      subst this
      simp only [Nat.succ_ne_self, if_false, if_true] at hs
      exact hlive Slot.top s hs
    · obtain ⟨x, hx, hx2⟩ := Option.map_eq_some'.mp ha.symm
      have : h = v.next + 2 := hx2.symm
      subst this
      have e1 : v.next + 2 ≠ v.next := by omega
      have e2 : v.next + 2 ≠ v.next + 1 := by omega
      simp only [e1, e2, if_false, if_true] at hs
      exact hlive Slot.bottom s hs
  · intro hp
    simp [Viewer.runEffect] at hp

theorem commit_sound (v : Viewer) (h : Viewer.Sound v) : Viewer.Sound v.commit := by
  unfold Viewer.commit
  cases hp : v.pending with
  | none => simpa [hp] using h
  | some p =>
    constructor
    · intro i hi s hs
      have := h.1 i (by simpa [Viewer.published, hp] using hi) s (by simpa using hs)
      exact this
    · intro _
      rfl

theorem frame_sound (v : Viewer) (h : Viewer.Sound v) : Viewer.Sound v.frame := h

theorem after_sound (rand : Nat → ℚ) (events : List ViewerEvent) :
    ∀ v : Viewer, Viewer.Sound v → Viewer.Sound (Viewer.after rand events v) := by
  induction events with
  | nil => intro v h; exact h
  | cons e rest ih =>
    intro v h
    apply ih
    cases e with
    | change refs detection viewMode flag => exact runEffect_sound rand refs detection viewMode flag v
    | commit => exact commit_sound v h
    | frame => exact frame_sound v h

theorem reconcile_previous (rand : Nat → ℚ) (k : Nat) (refs : Refs) (prev : ThreeObjects)
    (detection : Option Detection) (viewMode : String) (flag : Bool) :
    (reconcile rand k refs prev detection viewMode flag).previous =
      { main := prev.main.map (fun s => (cleanup s).1)
        top := prev.top.map (fun s => (cleanup s).1)
        bottom := prev.bottom.map (fun s => (cleanup s).1) } := by
  have hc : ∀ (slot : Slot) (o : Option Session) (tr : List Call),
      (cleanupSlot slot o tr).1 = o.map (fun s => (cleanup s).1) := by
    intro slot o tr
    cases o <;> rfl
  cases detection with
  | none => simp only [reconcile, hc]
  | some d =>
    simp only [reconcile, hc]
    split_ifs <;> rfl

theorem reconcile_original_threeObjects (rand : Nat → ℚ) (k : Nat) (prev : ThreeObjects)
    (d : Detection) (c : Container) (o1 o2 : Option Container) (flag : Bool) :
    (reconcile rand k ⟨some c, o1, o2⟩ prev (some d) "original" flag).threeObjects =
      { main := (initThreeScene rand k (some c) [originalConfig (some d)]).1
        top := none, bottom := none } := by
  simp [reconcile, initSlot]

/-- A frame that fires after a reconciliation run and before the render of its
publication renders the session the run has just disposed. -/
theorem stale_frame_renders_disposed (rand : Nat → ℚ) (refs : Refs)
    (detection : Option Detection) (viewMode : String) (flag : Bool) (v : Viewer)
    (h : Nat) (s : Session)
    (hslots : v.threeObjects = { main := some h, top := none, bottom := none })
    (hloop : v.loop = [h]) (hheap : v.heap h = some s) (hfresh : h < v.next) :
    (v.runEffect rand refs detection viewMode flag).frame.renders =
      v.renders ++ [(cleanup s).1] := by
  have e1 : h ≠ v.next := by omega
  have e2 : h ≠ v.next + 1 := by omega
  have e3 : h ≠ v.next + 2 := by omega
  simp only [Viewer.frame, Viewer.runEffect, hloop, hslots, reconcile_previous, Viewer.deref,
    Option.bind_some, Option.bind_none, hheap, Option.map_some', Option.map_none', storeAt,
    List.filterMap_cons, List.filterMap_nil, e1, e2, e3, if_false, if_true]
  simp [hheap]

theorem first_publication_rendered (rand : Nat → ℚ) (d : Detection) (c : Container) :
    ∃ s : Session,
      ((Viewer.initial.runEffect rand ⟨some c, none, none⟩ (some d) "original" false).commit).threeObjects
          = { main := some 0, top := none, bottom := none } ∧
      ((Viewer.initial.runEffect rand ⟨some c, none, none⟩ (some d) "original" false).commit).loop
          = [0] ∧
      ((Viewer.initial.runEffect rand ⟨some c, none, none⟩ (some d) "original" false).commit).heap 0
          = some s ∧
      ((Viewer.initial.runEffect rand ⟨some c, none, none⟩ (some d) "original" false).commit).next
          = 3 ∧
      ((Viewer.initial.runEffect rand ⟨some c, none, none⟩ (some d) "original" false).commit).renders
          = [] := by
  obtain ⟨s, hs⟩ : ∃ s, (initThreeScene rand 0 (some c) [originalConfig (some d)]).1 = some s :=
    ⟨_, rfl⟩
  have hr := reconcile_original_threeObjects rand 0
    { main := none, top := none, bottom := none } d c none none false
  rw [hs] at hr
  refine ⟨s, ?_, ?_, ?_, rfl, rfl⟩
  · simp [Viewer.commit, Viewer.runEffect, Viewer.initial, Viewer.deref, hr]
  · simp [Viewer.commit, Viewer.runEffect, Viewer.initial, Viewer.deref, hr, Handles.active]
  · simp [Viewer.commit, Viewer.runEffect, Viewer.initial, Viewer.deref, hr]

/-! ## Facts about the dashboard -/

theorem foldl_max_ge (l : List Nat) :
    ∀ a : Nat, a ≤ l.foldl max a ∧ ∀ x ∈ l, x ≤ l.foldl max a := by
  induction l with
  | nil => intro a; simp
  | cons y rest ih =>
    intro a
    obtain ⟨h1, h2⟩ := ih (max a y)
    simp only [List.foldl_cons, List.mem_cons]
    refine ⟨le_trans (le_max_left a y) h1, ?_⟩
    rintro x (rfl | hx)
    · exact le_trans (le_max_right a x) h1
    · exact h2 x hx

theorem id_le_maxId (detections : List Detection) (d : Detection) (h : d ∈ detections) :
    d.id ≤ maxId detections :=
  (foldl_max_ge (detections.map Detection.id) 0).2 d.id (List.mem_map_of_mem _ h)

theorem id_lt_newDetection (detections : List Detection) (fileName now : String)
    (d : Detection) (h : d ∈ detections) :
    d.id < (newDetection detections fileName now).id := by
  have hpos : 0 < detections.length := List.length_pos_of_mem h
  have := id_le_maxId detections d h
  simp only [newDetection, hpos, if_true]
  omega

theorem endsWith_toLowerCase (fileName : String) (h : endsWith fileName ".las" = true) :
    endsWith (toLowerCase fileName) ".las" = true := by
  simp only [endsWith, List.isSuffixOf_iff_suffix] at h ⊢
  obtain ⟨t, ht⟩ := h
  refine ⟨t.map Char.toLower, ?_⟩
  have hl : List.map Char.toLower (".las" : String).data = (".las" : String).data := by decide
  simp only [toLowerCase, ← ht, List.map_append, hl]

theorem handleFileChange_accepted (fileName now : String) (st : Dashboard)
    (h : endsWith (toLowerCase fileName) ".las" = true) :
    handleFileChange (some fileName) now st =
      { st with
        detections := st.detections ++ [newDetection st.detections fileName now]
        selectedDetection := some (newDetection st.detections fileName now)
        currentView := "original" } := by
  simp [handleFileChange, h]

theorem handleFileChange_detections (file : Option String) (now : String) (st : Dashboard) :
    (handleFileChange file now st).detections = st.detections ∨
    ∃ fileName, (handleFileChange file now st).detections =
      st.detections ++ [newDetection st.detections fileName now] := by
  cases file with
  | none => exact Or.inl rfl
  | some fileName =>
    by_cases h : endsWith (toLowerCase fileName) ".las" = true
    · exact Or.inr ⟨fileName, by rw [handleFileChange_accepted fileName now st h]⟩
    · exact Or.inl (by simp [handleFileChange, h])

theorem nodup_append_newDetection (detections : List Detection) (fileName now : String)
    (h : (detections.map Detection.id).Nodup) :
    ((detections ++ [newDetection detections fileName now]).map Detection.id).Nodup := by
  rw [List.map_append, List.nodup_append]
  refine ⟨h, by simp, ?_⟩
  intro a ha hb
  simp only [List.map_cons, List.map_nil, List.mem_singleton] at hb
  obtain ⟨d, hd, rfl⟩ := List.mem_map.mp ha
  have := id_lt_newDetection detections fileName now d hd
  omega

theorem handleFileChange_nodup (file : Option String) (now : String) (st : Dashboard)
    (h : (st.detections.map Detection.id).Nodup) :
    ((handleFileChange file now st).detections.map Detection.id).Nodup := by
  rcases handleFileChange_detections file now st with h1 | ⟨fileName, h1⟩
  · rw [h1]; exact h
  · rw [h1]; exact nodup_append_newDetection _ _ _ h

theorem uploads_nodup (files : List (Option String × String)) :
    ∀ st : Dashboard, (st.detections.map Detection.id).Nodup →
      ((uploads files st).detections.map Detection.id).Nodup := by
  induction files with
  | nil => intro st h; exact h
  | cons f rest ih =>
    intro st h
    exact ih _ (handleFileChange_nodup f.1 f.2 st h)

theorem isLas_newDetection (detections : List Detection) (fileName now : String) :
    isLas (some (newDetection detections fileName now)) = true := by
  simp [isLas, newDetection, startsWith]

theorem handleFileChange_flagsAgree (file : Option String) (now : String) (st : Dashboard)
    (h : flagsAgree st) : flagsAgree (handleFileChange file now st) := by
  intro d hd
  rcases handleFileChange_detections file now st with h1 | ⟨fileName, h1⟩
  · rw [h1] at hd; exact h d hd
  · rw [h1] at hd
    rcases List.mem_append.mp hd with h2 | h2
    · exact h d h2
    · rw [List.mem_singleton] at h2
      subst h2
      rw [isLas_newDetection]
      rfl

theorem uploads_flagsAgree (files : List (Option String × String)) :
    ∀ st : Dashboard, flagsAgree st → flagsAgree (uploads files st) := by
  induction files with
  | nil => intro st h; exact h
  | cons f rest ih =>
    intro st h
    exact ih _ (handleFileChange_flagsAgree f.1 f.2 st h)

theorem initial_flagsAgree : flagsAgree Dashboard.initial := by
  intro d hd
  simp only [Dashboard.initial, seedDetections, List.mem_cons, List.mem_singleton,
    List.not_mem_nil, or_false] at hd
  rcases hd with rfl | rfl <;> decide

theorem autoSelect_viewInvariant (st : Dashboard) (h : viewInvariant st) :
    viewInvariant (autoSelect st) := by
  unfold autoSelect
  split_ifs with hc
  · have hv : st.currentView = "original" := h.1 hc.2
    exact ⟨fun _ => hv, fun _ _ _ => hv⟩
  · exact h

theorem step_viewInvariant (st : Dashboard) (a : Action) (ha : a.enabled st = true)
    (h : viewInvariant st) : viewInvariant (st.step a) := by
  cases a with
  | clickCard d =>
    apply autoSelect_viewInvariant
    unfold handleDetectionSelect
    split_ifs with hd
    · exact ⟨fun _ => rfl, fun _ _ _ => rfl⟩
    · refine ⟨fun hn => by simp at hn, fun e he hl => ?_⟩
      simp only [Option.some.injEq] at he
      subst he
      exact absurd hl hd
  | clickOriginal d =>
    apply autoSelect_viewInvariant
    exact ⟨fun _ => rfl, fun _ _ _ => rfl⟩
  | clickDetection d =>
    apply autoSelect_viewInvariant
    simp only [Action.enabled, viewButtonDisabled, Bool.and_eq_true, Bool.not_eq_true,
      Bool.or_eq_false_iff, decide_eq_true_eq, Bool.not_eq_eq_eq_not, Bool.not_true] at ha
    have hd : d.isLasUpload = false := ha.2.1
    refine ⟨fun hn => ?_, fun e he hl => ?_⟩
    · simp [handleViewChange, handleDetectionSelect, hd] at hn
    · simp only [handleViewChange, handleDetectionSelect, hd, Bool.false_eq_true, if_false,
        Option.some.injEq] at he
      subst he
      rw [hd] at hl
      exact absurd hl (by decide)
  | clickBoth d =>
    apply autoSelect_viewInvariant
    simp only [Action.enabled, viewButtonDisabled, Bool.and_eq_true, Bool.not_eq_true,
      Bool.or_eq_false_iff, decide_eq_true_eq, Bool.not_eq_eq_eq_not, Bool.not_true] at ha
    have hd : d.isLasUpload = false := ha.2.1
    refine ⟨fun hn => ?_, fun e he hl => ?_⟩
    · simp [handleViewChange, handleDetectionSelect, hd] at hn
    · simp only [handleViewChange, handleDetectionSelect, hd, Bool.false_eq_true, if_false,
        Option.some.injEq] at he
      subst he
      rw [hd] at hl
      exact absurd hl (by decide)
  | upload file now =>
    apply autoSelect_viewInvariant
    cases file with
    | none => exact h
    | some fileName =>
      by_cases hf : endsWith (toLowerCase fileName) ".las" = true
      · rw [handleFileChange_accepted fileName now st hf]
        exact ⟨fun _ => rfl, fun _ _ _ => rfl⟩
      · have : handleFileChange (some fileName) now st = st := by simp [handleFileChange, hf]
        rw [this]
        exact h

theorem run_viewInvariant (actions : List Action) :
    ∀ (start st : Dashboard), viewInvariant start → Dashboard.run start actions = some st →
      viewInvariant st := by
  induction actions with
  | nil =>
    intro start st h hrun
    simp only [Dashboard.run, Option.some.injEq] at hrun
    subst hrun
    exact h
  | cons a rest ih =>
    intro start st h hrun
    simp only [Dashboard.run] at hrun
    split_ifs at hrun with ha
    exact ih _ st (step_viewInvariant start a ha h) hrun

/-- One coordinate of a generated point, as the position buffer holds it, for
a draw in [0, 1): it lies between minus and plus half the magnitude of the
spread when that half is a value of both floating-point formats. -/
theorem coordinate_mem_Icc (r spread bound : ℚ) (hr0 : 0 ≤ r) (hr1 : r < 1)
    (hbound : |spread| / 2 = bound) (hd : toDouble bound = bound)
    (hf : toFloat32 bound = bound) :
    -bound ≤ toFloat32 (toDouble (toDouble (r - 1 / 2) * spread)) ∧
      toFloat32 (toDouble (toDouble (r - 1 / 2) * spread)) ≤ bound := by
  have hhalf : toDouble (1 / 2) = 1 / 2 := by
    have := toDouble_half (1 / 2) (by norm_num)
    rw [this]; norm_num
  have hnhalf : toDouble (-(1 / 2)) = -(1 / 2) := by rw [toDouble_neg, hhalf]
  have ha := toDouble_mem_Icc (x := r - 1 / 2) hnhalf hhalf (by linarith) (by linarith)
  have habs : |toDouble (r - 1 / 2)| ≤ 1 / 2 := abs_le.mpr ha
  have hprod : |toDouble (r - 1 / 2) * spread| ≤ bound := by
    rw [abs_mul, ← hbound]
    have := mul_le_mul_of_nonneg_right habs (abs_nonneg spread)
    linarith
  have hb := abs_le.mp hprod
  have hnd : toDouble (-bound) = -bound := by rw [toDouble_neg, hd]
  have hnf : toFloat32 (-bound) = -bound := by rw [toFloat32_neg, hf]
  have hx := toDouble_mem_Icc hnd hd hb.1 hb.2
  exact toFloat32_mem_Icc hnf hf hx.1 hx.2

/-- Point counts of the model at the decimal literals `0.0102` and `0.0002`:
`5000 * 0.0102` is the double `51.00000000000001`, so the loop runs 52 times,
and `5000 * 0.0002` is the double `1`, so it runs once. -/
theorem createPointCloud_count_at_literals (rand : Nat → ℚ) (k color : Nat)
    (size spread : ℚ) :
    (createPointCloud rand k color size spread (toDouble (51 / 5000))).1.vertices.length
      = 3 * 52 ∧
    (createPointCloud rand k color size spread (toDouble (1 / 5000))).1.vertices.length
      = 3 * 1 := by
  constructor
  · rw [createPointCloud_vertices_length, toDouble_literal_0_0102 _ rfl,
      toDouble_5000_mul_0_0102 _ (by norm_num)]
    have : ⌈(7177611906121729 / 2 ^ 47 : ℚ)⌉₊ = 52 := by
      rw [Nat.ceil_eq_iff (by norm_num)]
      constructor <;> norm_num
    rw [this]
  · rw [createPointCloud_vertices_length, toDouble_literal_0_0002 _ rfl,
      toDouble_5000_mul_0_0002 _ (by norm_num)]
    simp

/-! ## The claims -/

/-- Claim C1. For a selected detection and the surfaces of the mode mounted, the
reconciliation effect publishes 1 live session for `original`, 1 for
`detection`, 2 for `both` split and 1 for `both` combined, whatever sessions
were tracked before and whatever the other refs hold; with no detection
selected it publishes 0 for every view mode and flag. Hence, with the
detection unchanged, flipping the combined flag in `both` switches the count
between 2 and 1. -/
theorem reconcile_session_count (rand : Nat → ℚ) (k : Nat) (prev : ThreeObjects)
    (d : Detection) (m t b : Container) (o1 o2 : Option Container) (flag : Bool) :
    liveCount (reconcile rand k ⟨some m, o1, o2⟩ prev (some d) "original" flag) = 1 ∧
    liveCount (reconcile rand k ⟨some m, o1, o2⟩ prev (some d) "detection" flag) = 1 ∧
    liveCount (reconcile rand k ⟨o1, some t, some b⟩ prev (some d) "both" false) = 2 ∧
    liveCount (reconcile rand k ⟨some m, o1, o2⟩ prev (some d) "both" true) = 1 ∧
    (∀ (refs : Refs) (viewMode : String),
      liveCount (reconcile rand k refs prev none viewMode flag) = 0) ∧
    liveCount
      (reconcile rand (reconcile rand k ⟨o1, some t, some b⟩ prev (some d) "both" false).randPos
        ⟨some m, o1, o2⟩
        (reconcile rand k ⟨o1, some t, some b⟩ prev (some d) "both" false).threeObjects
        (some d) "both" true) = 1 ∧
    liveCount
      (reconcile rand (reconcile rand k ⟨some m, o1, o2⟩ prev (some d) "both" true).randPos
        ⟨o1, some t, some b⟩
        (reconcile rand k ⟨some m, o1, o2⟩ prev (some d) "both" true).threeObjects
        (some d) "both" false) = 2 := by
  refine ⟨?_, ?_, ?_, ?_, ?_, ?_, ?_⟩
  · simp [liveCount, reconcile, activeInstances, initSlot, initThreeScene]
  · simp [liveCount, reconcile, activeInstances, initSlot, initThreeScene]
  · simp [liveCount, reconcile, activeInstances, initSlot, initThreeScene]
  · simp [liveCount, reconcile, activeInstances, initSlot, initThreeScene]
  · intro refs viewMode
    simp [liveCount, reconcile, activeInstances]
  · simp [liveCount, reconcile, activeInstances, initSlot, initThreeScene]
  · simp [liveCount, reconcile, activeInstances, initSlot, initThreeScene]

/-- Claim C2. For a selected detection and the surfaces of the mode mounted, the
effect publishes: for `original` the session built in the main container from
`[originalConfig]`, top and bottom empty; for `detection` the session built in
the main container from `[detectionConfig]`, top and bottom empty; for `both`
split the session built in the top container from `[originalConfig]` and the
one built in the bottom container from `[detectionConfig]`, main empty; for
`both` combined the session built in the main container from
`[originalConfig, detectionConfig]`, top and bottom empty. Each of these
sessions exists. -/
theorem reconcile_slot_assignment (rand : Nat → ℚ) (k : Nat) (prev : ThreeObjects)
    (d : Detection) (m t b : Container) (o1 o2 : Option Container) (flag : Bool) :
    ((reconcile rand k ⟨some m, o1, o2⟩ prev (some d) "original" flag).threeObjects =
        { main := (initThreeScene rand k (some m) [originalConfig (some d)]).1
          top := none, bottom := none } ∧
      (initThreeScene rand k (some m) [originalConfig (some d)]).1.isSome = true) ∧
    ((reconcile rand k ⟨some m, o1, o2⟩ prev (some d) "detection" flag).threeObjects =
        { main := (initThreeScene rand k (some m) [detectionConfig (some d)]).1
          top := none, bottom := none } ∧
      (initThreeScene rand k (some m) [detectionConfig (some d)]).1.isSome = true) ∧
    ((reconcile rand k ⟨o1, some t, some b⟩ prev (some d) "both" false).threeObjects =
        { main := none
          top := (initThreeScene rand k (some t) [originalConfig (some d)]).1
          bottom :=
            (initThreeScene rand (initThreeScene rand k (some t) [originalConfig (some d)]).2
              (some b) [detectionConfig (some d)]).1 } ∧
      (initThreeScene rand k (some t) [originalConfig (some d)]).1.isSome = true ∧
      (initThreeScene rand (initThreeScene rand k (some t) [originalConfig (some d)]).2
        (some b) [detectionConfig (some d)]).1.isSome = true) ∧
    ((reconcile rand k ⟨some m, o1, o2⟩ prev (some d) "both" true).threeObjects =
        { main :=
            (initThreeScene rand k (some m) [originalConfig (some d), detectionConfig (some d)]).1
          top := none, bottom := none } ∧
      (initThreeScene rand k (some m)
        [originalConfig (some d), detectionConfig (some d)]).1.isSome = true) := by
  refine ⟨⟨?_, rfl⟩, ⟨?_, rfl⟩, ⟨?_, rfl, rfl⟩, ⟨?_, rfl⟩⟩
  · simp [reconcile, initSlot]
  · simp [reconcile, initSlot]
  · simp [reconcile, initSlot]
  · simp [reconcile, initSlot]

/-- Claim C3, as the code has it. For a selected detection, reconciling with
view mode `both` and the combined flag set yields exactly one live session,
whose point-cloud group holds exactly two nodes; both nodes sit at the origin,
so neither is offset from the other: the configs the effect derives carry no
`offsetX`. -/
theorem reconcile_combined_two_nodes_same_position (rand : Nat → ℚ) (k : Nat)
    (prev : ThreeObjects) (d : Detection) (m : Container) (o1 o2 : Option Container) :
    ∃ (s : Session) (p q : Points),
      activeInstances (reconcile rand k ⟨some m, o1, o2⟩ prev (some d) "both" true).threeObjects
        = [s] ∧
      s.pointCloudGroup.children = [p, q] ∧ p.position = origin ∧ q.position = origin ∧
      p.position = q.position := by
  obtain ⟨s, p, q, h1, h2, h3, h4⟩ := reconcile_combined_nodes rand k prev d m o1 o2
  exact ⟨s, p, q, h1, h2, h3, h4, h3.trans h4.symm⟩

/-- Claim C3 fails as stated: for the first seed detection, combined `both`
publishes one session with two nodes, and no two-node reading of its group has
nodes at different positions. -/
theorem reconcile_combined_offset_counterexample :
    ¬ ∃ (s : Session) (p q : Points),
      activeInstances
          (reconcile (fun _ => 0) 0 ⟨some ⟨0, 800, 600⟩, none, none⟩ ⟨none, none, none⟩
            (some seedDetection1) "both" true).threeObjects = [s] ∧
        s.pointCloudGroup.children = [p, q] ∧ p.position ≠ q.position := by
  rintro ⟨s, p, q, h1, h2, h3⟩
  obtain ⟨s0, p0, q0, e1, e2, e3, e4⟩ :=
    reconcile_combined_nodes (fun _ => 0) 0 ⟨none, none, none⟩ seedDetection1 ⟨0, 800, 600⟩
      none none
  rw [e1] at h1
  injection h1 with hs _
  subst hs
  rw [e2] at h2
  injection h2 with hp h2
  injection h2 with hq _
  subst hp; subst hq
  exact h3 (e3.trans e4.symm)

/-- Claim C4. In every run of the effect the trace has the `cleanup` of every
session tracked in `main`, `top` and `bottom`, and every `cleanup` in the trace
comes before every `initThreeScene`: no create precedes a dispose. -/
theorem reconcile_dispose_all_before_create_any (rand : Nat → ℚ) (k : Nat) (refs : Refs)
    (prev : ThreeObjects) (detection : Option Detection) (viewMode : String) (flag : Bool) :
    (∀ (slot : Slot) (s : Session), prev.get slot = some s →
      Call.cleanup slot ∈ (reconcile rand k refs prev detection viewMode flag).trace) ∧
    (∀ (i j : Nat) (a b : Slot),
      (reconcile rand k refs prev detection viewMode flag).trace[i]? =
          some (Call.initThreeScene a) →
      (reconcile rand k refs prev detection viewMode flag).trace[j]? =
          some (Call.cleanup b) →
      j < i) := by
  obtain ⟨creates, htrace, hcreates⟩ := reconcile_trace rand k refs prev detection viewMode flag
  rw [htrace]
  constructor
  · intro slot s hs
    apply List.mem_append_left
    cases slot <;> simp [ThreeObjects.get] at hs <;> simp [hs]
  · intro i j a b hi hj
    generalize hpre : ((if prev.main.isSome then [Call.cleanup Slot.main] else []) ++
          (if prev.top.isSome then [Call.cleanup Slot.top] else []) ++
          (if prev.bottom.isSome then [Call.cleanup Slot.bottom] else [])) = pre at hi hj
    have hprec : ∀ c ∈ pre, c.isCleanup = true := by
      intro c hc
      rw [← hpre] at hc
      simp only [List.mem_append] at hc
      rcases hc with (h | h) | h <;> split_ifs at h <;> simp_all [Call.isCleanup]
    have hi2 : pre.length ≤ i := by
      by_contra hlt
      push_neg at hlt
      rw [List.getElem?_append_left hlt] at hi
      have := hprec _ (List.getElem?_mem hi)
      simp [Call.isCleanup] at this
    have hj2 : j < pre.length := by
      by_contra hge
      push_neg at hge
      rw [List.getElem?_append_right hge] at hj
      have := hcreates _ (List.getElem?_mem hj)
      simp [Call.isInit] at this
    omega

/-- Witness for claim C4: a session tracked in `main`, then `original` selected
with the main surface mounted: the trace is `cleanup`, `initThreeScene`. -/
theorem reconcile_dispose_all_before_create_any_witness :
    Call.cleanup Slot.main ∈
      (reconcile (fun _ => 0) 0 ⟨some ⟨0, 800, 600⟩, none, none⟩
        ⟨(initThreeScene (fun _ => 0) 0 (some ⟨0, 800, 600⟩) []).1, none, none⟩
        (some seedDetection1) "original" false).trace ∧ 0 < 1 :=
  have h := reconcile_dispose_all_before_create_any (fun _ => 0) 0
    ⟨some ⟨0, 800, 600⟩, none, none⟩
    ⟨(initThreeScene (fun _ => 0) 0 (some ⟨0, 800, 600⟩) []).1, none, none⟩
    (some seedDetection1) "original" false
  ⟨h.1 Slot.main _ rfl,
    h.2 1 0 Slot.main Slot.main
      (by simp [reconcile, cleanupSlot, initSlot, initThreeScene])
      (by simp [reconcile, cleanupSlot, initSlot, initThreeScene])⟩

/-- Claim C5. A session is created with the camera at distance 20, and after
every prefix of every finite sequence of wheel events, whatever their
`deltaY`, the camera distance lies in the closed interval from 1 to 100. -/
theorem wheel_zoom_clamped (rand : Nat → ℚ) (k : Nat) (c : Container)
    (configs : List (Option PointCloudConfig)) :
    ∃ s : Session, (initThreeScene rand k (some c) configs).1 = some s ∧
      s.camera.position.z = 20 ∧
      ∀ (deltas : List ℚ) (n : Nat),
        1 ≤ (wheelEvents (deltas.take n) s).camera.position.z ∧
          (wheelEvents (deltas.take n) s).camera.position.z ≤ 100 := by
  refine ⟨_, rfl, rfl, ?_⟩
  intro deltas n
  apply wheelEvents_bounds
  constructor <;> norm_num

/-- Claim C6. Calling `handleResize` twice with the container unchanged leaves the
session exactly as calling it once does; in particular the camera aspect ratio
and the renderer output size are the same. -/
theorem handleResize_idempotent (c : Container) (s : Session) :
    handleResize c (handleResize c s) = handleResize c s ∧
    (handleResize c (handleResize c s)).camera.aspect = (handleResize c s).camera.aspect ∧
    (handleResize c (handleResize c s)).renderer.width = (handleResize c s).renderer.width ∧
    (handleResize c (handleResize c s)).renderer.height = (handleResize c s).renderer.height := by
  have h : handleResize c (handleResize c s) = handleResize c s := by
    unfold handleResize
    by_cases hc : 0 < c.clientWidth ∧ 0 < c.clientHeight
    · simp [hc]
    · simp [hc]
  exact ⟨h, by rw [h], by rw [h], by rw [h]⟩

/-- Claim C7. `handleResize` reads the container size: if width and height are
both positive it sets the camera aspect ratio to width / height and the
renderer output size to (width, height); otherwise it leaves the session, and
so the aspect ratio and the output size, unchanged. -/
theorem handleResize_spec (c : Container) (s : Session) :
    (0 < c.clientWidth ∧ 0 < c.clientHeight →
      (handleResize c s).camera.aspect = (c.clientWidth : ℚ) / (c.clientHeight : ℚ) ∧
      (handleResize c s).renderer.width = c.clientWidth ∧
      (handleResize c s).renderer.height = c.clientHeight) ∧
    (¬ (0 < c.clientWidth ∧ 0 < c.clientHeight) →
      handleResize c s = s ∧
      (handleResize c s).camera.aspect = s.camera.aspect ∧
      (handleResize c s).renderer.width = s.renderer.width ∧
      (handleResize c s).renderer.height = s.renderer.height) := by
  constructor
  · intro hc
    simp [handleResize, hc]
  · intro hc
    have h : handleResize c s = s := by simp [handleResize, hc]
    exact ⟨h, by rw [h], by rw [h], by rw [h]⟩

/-- Witness for claim C7: a session created in a 300 by 200 container, resized
after the container became 800 by 600, and resized while the container has
width 0. -/
theorem handleResize_spec_witness :
    (∃ s : Session, (initThreeScene (fun _ => 0) 0 (some ⟨0, 300, 200⟩) []).1 = some s ∧
      (handleResize ⟨0, 800, 600⟩ s).camera.aspect = ((800 : Int) : ℚ) / ((600 : Int) : ℚ) ∧
      (handleResize ⟨0, 800, 600⟩ s).renderer.width = 800 ∧
      (handleResize ⟨0, 800, 600⟩ s).renderer.height = 600 ∧
      handleResize ⟨0, 0, 600⟩ s = s) :=
  ⟨_, rfl,
    ((handleResize_spec ⟨0, 800, 600⟩ _).1 (by decide)).1,
    ((handleResize_spec ⟨0, 800, 600⟩ _).1 (by decide)).2.1,
    ((handleResize_spec ⟨0, 800, 600⟩ _).1 (by decide)).2.2,
    ((handleResize_spec ⟨0, 0, 600⟩ _).2 (by decide)).1⟩

/-- Claim C8. A missing surface is not an error. `initThreeScene` on an absent
container returns null and consumes no random draw. With a detection selected,
the slot a mode requires holds a session exactly when its surface is mounted:
`main` for `original`, `detection` and combined `both`; `top` and `bottom`,
each on its own surface alone, for split `both`. -/
theorem reconcile_unavailable_surface (rand : Nat → ℚ) (k : Nat) (refs : Refs)
    (prev : ThreeObjects) (d : Detection) (flag : Bool)
    (configs : List (Option PointCloudConfig)) :
    initThreeScene rand k none configs = (none, k) ∧
    (reconcile rand k refs prev (some d) "original" flag).threeObjects.main.isSome =
      refs.mainContainerRef.isSome ∧
    (reconcile rand k refs prev (some d) "detection" flag).threeObjects.main.isSome =
      refs.mainContainerRef.isSome ∧
    (reconcile rand k refs prev (some d) "both" true).threeObjects.main.isSome =
      refs.mainContainerRef.isSome ∧
    (reconcile rand k refs prev (some d) "both" false).threeObjects.top.isSome =
      refs.topContainerRef.isSome ∧
    (reconcile rand k refs prev (some d) "both" false).threeObjects.bottom.isSome =
      refs.bottomContainerRef.isSome := by
  refine ⟨rfl, ?_, ?_, ?_, ?_, ?_⟩
  · cases h : refs.mainContainerRef <;> simp [reconcile, initSlot, initThreeScene, h]
  · cases h : refs.mainContainerRef <;> simp [reconcile, initSlot, initThreeScene, h]
  · cases h : refs.mainContainerRef <;> simp [reconcile, initSlot, initThreeScene, h]
  · cases h : refs.topContainerRef <;> simp [reconcile, initSlot, initThreeScene, h]
  · cases h : refs.bottomContainerRef <;> simp [reconcile, initSlot, initThreeScene, h]

/-- Claim C9, as the code has it. With `numPoints` the double product
`5000 * density` and as long as three coordinates per point fit in an array
(`numPoints` at most 1431655765), the position buffer holds three coordinates
for each natural number below `numPoints`, whatever the random source
returns: `3 * ⌈numPoints⌉` coordinates, none when `numPoints` is not positive,
and `3 * n` when `numPoints` is a natural number `n`. For the densities the
reconciliation passes, `1`, `1.5` and `1.2`, these are 5000, 7500 and 6000
points, `5000 * density`. -/
theorem createPointCloud_point_count (rand : Nat → ℚ) (k color : Nat)
    (size spread density : ℚ) (hsize : toDouble (5000 * density) ≤ 1431655765) :
    (createPointCloud rand k color size spread density).1.vertices.length =
      3 * ⌈toDouble (5000 * density)⌉₊ ∧
    (createPointCloud rand k color size spread density).1.vertices.length ≤ 2 ^ 32 - 1 ∧
    (toDouble (5000 * density) ≤ 0 →
      (createPointCloud rand k color size spread density).1.vertices = []) ∧
    (∀ n : Nat, toDouble (5000 * density) = (n : ℚ) →
      (createPointCloud rand k color size spread density).1.vertices.length = 3 * n) ∧
    (density = 1 →
      (createPointCloud rand k color size spread density).1.vertices.length = 3 * 5000) ∧
    (density = 3 / 2 →
      (createPointCloud rand k color size spread density).1.vertices.length = 3 * 7500) ∧
    (density = toDouble (6 / 5) ∨ density = 6 / 5 →
      (createPointCloud rand k color size spread density).1.vertices.length = 3 * 6000) := by
  have hlen := createPointCloud_vertices_length rand k color size spread density
  have hnat : ∀ n : Nat, toDouble (5000 * density) = (n : ℚ) →
      (createPointCloud rand k color size spread density).1.vertices.length = 3 * n := by
    intro n hn
    rw [hlen, hn, Nat.ceil_natCast]
  refine ⟨hlen, ?_, ?_, hnat, ?_, ?_, ?_⟩
  · have hc : ⌈toDouble (5000 * density)⌉₊ ≤ 1431655765 := by
      rw [Nat.ceil_le]
      exact_mod_cast hsize
    rw [hlen]
    omega
  · intro hd
    have hc : ⌈toDouble (5000 * density)⌉₊ = 0 := Nat.ceil_eq_zero.mpr hd
    rw [hc] at hlen
    exact List.eq_nil_of_length_eq_zero (by simpa using hlen)
  · intro h
    exact hnat 5000 (by rw [toDouble_5000 _ (by rw [h]; norm_num)]; norm_num)
  · intro h
    exact hnat 7500 (by rw [toDouble_7500 _ (by rw [h]; norm_num)]; norm_num)
  · intro h
    rcases h with h | h
    · exact hnat 6000 (by
        rw [h, toDouble_literal_1_2 _ rfl, toDouble_5000_mul_1_2 _ (by norm_num)]; norm_num)
    · exact hnat 6000 (by rw [toDouble_6000 _ (by rw [h]; norm_num)]; norm_num)

/-- Witness for claim C9: density 1 gives 5000 points, density 0 none. -/
theorem createPointCloud_point_count_witness :
    (createPointCloud (fun _ => 0) 0 0x007bff (1 / 20) 10 1).1.vertices.length = 3 * 5000 ∧
    (createPointCloud (fun _ => 0) 0 0x007bff (1 / 20) 10 0).1.vertices = [] :=
  ⟨(createPointCloud_point_count (fun _ => 0) 0 0x007bff (1 / 20) 10 1
      (by rw [toDouble_5000 _ (by norm_num)]; norm_num)).2.2.2.2.1 rfl,
    (createPointCloud_point_count (fun _ => 0) 0 0x007bff (1 / 20) 10 0
      (by rw [mul_zero, toDouble_zero]; norm_num)).2.2.1
      (by rw [mul_zero, toDouble_zero])⟩

/-- Claim C9 fails as stated: for the density `0.0001` the product
`5000 * density` is the double `0.5`, the loop runs once (`0 < 0.5`) and the
buffer holds 3 coordinates, while `3 * 5000 * density` is not 3. -/
theorem createPointCloud_point_count_counterexample :
    (createPointCloud (fun _ => 0) 0 0x007bff (1 / 20) 10
      (toDouble (1 / 10000))).1.vertices.length = 3 ∧
    (((createPointCloud (fun _ => 0) 0 0x007bff (1 / 20) 10
      (toDouble (1 / 10000))).1.vertices.length : Nat) : ℚ) ≠
        3 * 5000 * toDouble (1 / 10000) := by
  have h : (createPointCloud (fun _ => 0) 0 0x007bff (1 / 20) 10
      (toDouble (1 / 10000))).1.vertices.length = 3 := by
    rw [createPointCloud_vertices_length, toDouble_literal_0_0001 _ rfl,
      toDouble_5000_mul_0_0001 _ (by norm_num)]
    have : ⌈(1 / 2 ^ 1 : ℚ)⌉₊ = 1 := by
      rw [Nat.ceil_eq_iff (by norm_num)]
      constructor <;> norm_num
    rw [this]
  refine ⟨h, ?_⟩
  rw [h, toDouble_literal_0_0001 _ rfl]
  norm_num

/-- Claim C10, as the code has it. When every draw of the random source lies
in [0, 1) and half the magnitude of the spread is at most `2^127` and a value
of both floating-point formats (a double, which the code computes with, and a
binary32, which the position buffer holds), every coordinate in the position
buffer lies between `-|spread|/2` and `|spread|/2`, which for a spread that is
not negative is the interval from `-spread/2` to `spread/2`. This covers the
spreads 10 and 8 that the reconciliation passes. For spread 0 every coordinate
is 0, so every point is the origin. -/
theorem createPointCloud_coordinate_bounds (rand : Nat → ℚ) (k color : Nat)
    (size spread density : ℚ) (hrand : ∀ j, 0 ≤ rand j ∧ rand j < 1) :
    (|spread| / 2 ≤ 2 ^ 127 →
      toDouble (|spread| / 2) = |spread| / 2 → toFloat32 (|spread| / 2) = |spread| / 2 →
      ∀ v ∈ (createPointCloud rand k color size spread density).1.vertices,
        -(|spread| / 2) ≤ v ∧ v ≤ |spread| / 2) ∧
    (0 ≤ spread → spread / 2 ≤ 2 ^ 127 →
      toDouble (spread / 2) = spread / 2 → toFloat32 (spread / 2) = spread / 2 →
      ∀ v ∈ (createPointCloud rand k color size spread density).1.vertices,
        -(spread / 2) ≤ v ∧ v ≤ spread / 2) ∧
    (spread = 10 ∨ spread = 8 →
      ∀ v ∈ (createPointCloud rand k color size spread density).1.vertices,
        -(spread / 2) ≤ v ∧ v ≤ spread / 2) ∧
    (spread = 0 →
      ∀ v ∈ (createPointCloud rand k color size spread density).1.vertices, v = 0) := by
  have hgen : ∀ bound : ℚ, |spread| / 2 = bound → toDouble bound = bound →
      toFloat32 bound = bound →
      ∀ v ∈ (createPointCloud rand k color size spread density).1.vertices,
        -bound ≤ v ∧ v ≤ bound := by
    intro bound hb hd hf
    apply createPointCloud_vertices_forall rand k color size spread density
      (fun v => -bound ≤ v ∧ v ≤ bound)
    intro j
    exact coordinate_mem_Icc (rand j) spread bound (hrand j).1 (hrand j).2 hb hd hf
  refine ⟨fun _ hd hf => hgen _ rfl hd hf, ?_, ?_, ?_⟩
  · intro hs _ hd hf
    exact hgen _ (by rw [abs_of_nonneg hs]) hd hf
  · intro hs
    rcases hs with hs | hs
    · have hb : |spread| / 2 = 5 := by rw [hs]; norm_num
      have h5 : spread / 2 = 5 := by rw [hs]; norm_num
      rw [h5]
      exact hgen 5 hb (toDouble_5 _ rfl) (toFloat32_5 _ rfl)
    · have hb : |spread| / 2 = 4 := by rw [hs]; norm_num
      have h4 : spread / 2 = 4 := by rw [hs]; norm_num
      rw [h4]
      exact hgen 4 hb (toDouble_4 _ rfl) (toFloat32_4 _ rfl)
  · intro hs v hv
    have hb : |spread| / 2 = 0 := by rw [hs]; norm_num
    have := hgen 0 hb toDouble_zero toFloat32_zero v hv
    rw [neg_zero] at this
    exact le_antisymm this.2 this.1

/-- Witness for claim C10: all draws 0; spread 10 with density 1, and spread 0. -/
theorem createPointCloud_coordinate_bounds_witness :
    (∀ j : Nat, (0 : ℚ) ≤ (fun _ => (0 : ℚ)) j ∧ (fun _ => (0 : ℚ)) j < 1) ∧
    (∀ v ∈ (createPointCloud (fun _ => 0) 0 0x007bff (1 / 20) 10 1).1.vertices,
      -((10 : ℚ) / 2) ≤ v ∧ v ≤ (10 : ℚ) / 2) ∧
    (∀ v ∈ (createPointCloud (fun _ => 0) 0 0x007bff (1 / 20) 10 1).1.vertices,
      -(|(10 : ℚ)| / 2) ≤ v ∧ v ≤ |(10 : ℚ)| / 2) ∧
    (∀ v ∈ (createPointCloud (fun _ => 0) 0 0x007bff (1 / 20) 0 1).1.vertices, v = 0) :=
  ⟨fun _ => by norm_num,
    (createPointCloud_coordinate_bounds (fun _ => 0) 0 0x007bff (1 / 20) 10 1
      (fun _ => by norm_num)).2.1 (by norm_num) (by norm_num)
      (by rw [toDouble_5 _ (by norm_num)]; norm_num)
      (by rw [toFloat32_5 _ (by norm_num)]; norm_num),
    (createPointCloud_coordinate_bounds (fun _ => 0) 0 0x007bff (1 / 20) 10 1
      (fun _ => by norm_num)).1 (by norm_num)
      (by rw [toDouble_5 _ (by norm_num)]; norm_num)
      (by rw [toFloat32_5 _ (by norm_num)]; norm_num),
    (createPointCloud_coordinate_bounds (fun _ => 0) 0 0x007bff (1 / 20) 0 1
      (fun _ => by norm_num)).2.2.2 rfl⟩

/-- Claim C10 fails as stated: with spread `0.1`, density 1 and every draw 0
(a value in [0, 1)), the first coordinate is the double `-0.05`, half the
spread exactly, and the position buffer holds it as the binary32 value
`-13421773 / 2^28 = -0.05000000074505806`, which is below `-spread/2`. -/
theorem createPointCloud_coordinate_bounds_counterexample :
    (∀ j : Nat, (0 : ℚ) ≤ (fun _ => (0 : ℚ)) j ∧ (fun _ => (0 : ℚ)) j < 1) ∧
    0 ≤ toDouble (1 / 10) ∧
    -(13421773 / 2 ^ 28) ∈
      (createPointCloud (fun _ => 0) 0 0x007bff (1 / 20) (toDouble (1 / 10)) 1).1.vertices ∧
    ¬ (-(toDouble (1 / 10) / 2) ≤ -(13421773 / 2 ^ 28 : ℚ)) := by
  have hs : toDouble (1 / 10) = 3602879701896397 / 2 ^ 55 := toDouble_literal_0_1 _ rfl
  have hmem := createPointCloud_first_coordinate (fun _ => 0) 0 0x007bff (1 / 20)
    (toDouble (1 / 10)) 1 (by rw [toDouble_5000 _ (by norm_num)]; norm_num)
  have h1 : toDouble ((0 : ℚ) - 1 / 2) = -(1 / 2) := by
    rw [show ((0 : ℚ) - 1 / 2) = -(1 / 2) by norm_num, toDouble_neg,
      toDouble_half _ (by norm_num)]
    norm_num
  have h2 : toDouble (-(1 / 2) * toDouble (1 / 10)) = -(3602879701896397 / 2 ^ 56) := by
    rw [hs, show (-(1 / 2) * (3602879701896397 / 2 ^ 55) : ℚ) =
      -(3602879701896397 / 2 ^ 56) by norm_num, toDouble_neg, toDouble_half_of_0_1 _ rfl]
  have h3 : toFloat32 (-(3602879701896397 / 2 ^ 56)) = -(13421773 / 2 ^ 28) := by
    rw [toFloat32_neg, toFloat32_half_of_0_1 _ rfl]
  simp only [] at hmem
  rw [h1, h2, h3] at hmem
  refine ⟨fun _ => by norm_num, ?_, hmem, ?_⟩
  · rw [hs]; norm_num
  · rw [hs]; norm_num

/-- Claim C11. The two configs the effect derives depend on the detection only
through the `LAS_FILE:` prefix test: detections with the same test result get
equal configs; a detection that fails the test gets original
{0x007bff, 0.05, 10, 1} and detection {0xdc3545, 0.05, 8, 1}; and both the
original and the detection config of a detection that passes the test differ
in colour and in density from those of one that fails it. -/
theorem config_profile_by_placeholder (d1 d2 : Detection) :
    (isLas (some d1) = isLas (some d2) →
      originalConfig (some d1) = originalConfig (some d2) ∧
      detectionConfig (some d1) = detectionConfig (some d2)) ∧
    (isLas (some d1) = false →
      originalConfig (some d1) =
        some { color := 0x007bff, size := 1 / 20, spread := 10, density := 1, offsetX := none } ∧
      detectionConfig (some d1) =
        some { color := 0xdc3545, size := 1 / 20, spread := 8, density := 1, offsetX := none }) ∧
    (isLas (some d1) = true → isLas (some d2) = false →
      ∃ a1 a2 b1 b2 : PointCloudConfig,
        originalConfig (some d1) = some a1 ∧ originalConfig (some d2) = some a2 ∧
        detectionConfig (some d1) = some b1 ∧ detectionConfig (some d2) = some b2 ∧
        a1.color ≠ a2.color ∧ a1.density ≠ a2.density ∧
        b1.color ≠ b2.color ∧ b1.density ≠ b2.density) := by
  refine ⟨?_, ?_, ?_⟩
  · intro h
    simp [originalConfig, detectionConfig, h]
  · intro h
    simp [originalConfig, detectionConfig, h]
  · intro h1 h2
    refine ⟨_, _, _, _, rfl, rfl, rfl, rfl, ?_, ?_, ?_, ?_⟩ <;>
      simp [h1, h2] <;> norm_num

/-- Witness for claim C11: the two seed detections fail the prefix test, the
uploaded sample passes it. -/
theorem config_profile_by_placeholder_witness :
    originalConfig (some seedDetection1) = originalConfig (some seedDetection2) ∧
    detectionConfig (some seedDetection1) =
      some { color := 0xdc3545, size := 1 / 20, spread := 8, density := 1, offsetX := none } ∧
    (∃ a1 a2 b1 b2 : PointCloudConfig,
        originalConfig (some uploadedSample) = some a1 ∧
        originalConfig (some seedDetection2) = some a2 ∧
        detectionConfig (some uploadedSample) = some b1 ∧
        detectionConfig (some seedDetection2) = some b2 ∧
        a1.color ≠ a2.color ∧ a1.density ≠ a2.density ∧
        b1.color ≠ b2.color ∧ b1.density ≠ b2.density) :=
  ⟨((config_profile_by_placeholder seedDetection1 seedDetection2).1 (by decide)).1,
    ((config_profile_by_placeholder seedDetection1 seedDetection2).2.1 (by decide)).2,
    (config_profile_by_placeholder uploadedSample seedDetection2).2.2 (by decide) (by decide)⟩

/-- Claim C12, as the code has it. For every available container
`initThreeScene` returns a session. The renderer output width is the
container's `clientWidth`, or 300 when that is 0; the height is its
`clientHeight`, or 200 when that is 0; the camera aspect ratio is that width
over that height. So when neither dimension is 0 the output size is
(clientWidth, clientHeight) and the aspect ratio is clientWidth / clientHeight. -/
theorem initThreeScene_size (rand : Nat → ℚ) (k : Nat) (c : Container)
    (configs : List (Option PointCloudConfig)) :
    ∃ s : Session, (initThreeScene rand k (some c) configs).1 = some s ∧
      s.renderer.width = (if c.clientWidth = 0 then 300 else c.clientWidth) ∧
      s.renderer.height = (if c.clientHeight = 0 then 200 else c.clientHeight) ∧
      s.camera.aspect = ((s.renderer.width : Int) : ℚ) / ((s.renderer.height : Int) : ℚ) ∧
      (c.clientWidth ≠ 0 → c.clientHeight ≠ 0 →
        s.renderer.width = c.clientWidth ∧ s.renderer.height = c.clientHeight ∧
        s.camera.aspect = (c.clientWidth : ℚ) / (c.clientHeight : ℚ)) := by
  refine ⟨_, rfl, rfl, rfl, rfl, ?_⟩
  intro hw hh
  simp [hw, hh]

/-- Witness for claim C12: an 800 by 600 container. -/
theorem initThreeScene_size_witness :
    ∃ s : Session, (initThreeScene (fun _ => 0) 0 (some ⟨0, 800, 600⟩) []).1 = some s ∧
      s.renderer.width = 800 ∧ s.renderer.height = 600 ∧
      s.camera.aspect = ((800 : Int) : ℚ) / ((600 : Int) : ℚ) := by
  obtain ⟨s, hs, _, _, _, h⟩ := initThreeScene_size (fun _ => 0) 0 ⟨0, 800, 600⟩ []
  exact ⟨s, hs, (h (by decide) (by decide)).1, (h (by decide) (by decide)).2.1,
    (h (by decide) (by decide)).2.2⟩

/-- Claim C12 fails as stated: a mounted container whose size is 0 by 0 gets a
300 by 200 renderer, not a 0 by 0 one. -/
theorem initThreeScene_size_counterexample :
    ∃ s : Session, (initThreeScene (fun _ => 0) 0 (some ⟨0, 0, 0⟩) []).1 = some s ∧
      s.renderer.width = 300 ∧ s.renderer.height = 200 ∧
      ¬ (s.renderer.width = (⟨0, 0, 0⟩ : Container).clientWidth ∧
        s.renderer.height = (⟨0, 0, 0⟩ : Container).clientHeight) :=
  ⟨_, rfl, rfl, rfl, by decide⟩

/-- Claim C13. `cleanup` is total. For every session it leaves the point-cloud
group with no children and has removed, in order, every node the group held,
each with its geometry and its material disposed. A session created from a
list of configs holds one node per non-null config, none disposed yet, so after
`cleanup` every node it created has been released. -/
theorem cleanup_releases_every_node (rand : Nat → ℚ) (k : Nat) (c : Container)
    (configs : List (Option PointCloudConfig)) (s : Session) :
    ((cleanup s).1.pointCloudGroup.children = [] ∧
      (cleanup s).2 = s.pointCloudGroup.children.map Points.released ∧
      (cleanup s).2.length = s.pointCloudGroup.children.length ∧
      (cleanup s).2.all (fun p => p.geometryDisposed && p.materialDisposed) = true) ∧
    (∃ s0 : Session, (initThreeScene rand k (some c) configs).1 = some s0 ∧
      s0.pointCloudGroup.children.length = (configs.filterMap id).length ∧
      (cleanup s0).1.pointCloudGroup.children = [] ∧
      (cleanup s0).2 = s0.pointCloudGroup.children.map Points.released) := by
  have hspec : ∀ t : Session, (cleanup t).1.pointCloudGroup.children = [] ∧
      (cleanup t).2 = t.pointCloudGroup.children.map Points.released := by
    intro t
    simp [cleanup, cleanup_loop_spec]
  refine ⟨⟨(hspec s).1, (hspec s).2, ?_, ?_⟩, ?_⟩
  · rw [(hspec s).2, List.length_map]
  · rw [(hspec s).2]
    simp [Points.released]
  · refine ⟨_, rfl, ?_, (hspec _).1, (hspec _).2⟩
    simpa using forEach_children_length rand configs k []

/-- Claim C14, as the code has it. After a `mousedown` at `p0` and moves
through `moves` with no `mouseup` or `mouseout` in between, the rotation of the
group about y is the one accumulated from the x coordinates and the rotation
about x the one accumulated from the y coordinates: each move adds 0.005 times
its distance from the previous position, every difference, product and sum
being a double. Moves received while no drag is in progress leave the session,
and so both rotations, unchanged: on a session that is not being dragged, on
a new session, and after `mouseup` or `mouseout`, which themselves leave the
rotations as the drag left them. -/
theorem drag_rotation (s : Session) (p0 : ℚ × ℚ) (moves later : List (ℚ × ℚ)) :
    (mouseMoves moves (handleMouseDown p0.1 p0.2 s)).pointCloudGroup.rotationY =
      accumulateRotation s.pointCloudGroup.rotationY p0.1 (moves.map Prod.fst) ∧
    (mouseMoves moves (handleMouseDown p0.1 p0.2 s)).pointCloudGroup.rotationX =
      accumulateRotation s.pointCloudGroup.rotationX p0.2 (moves.map Prod.snd) ∧
    (s.isDragging = false →
      mouseMoves moves s = s ∧
      (mouseMoves moves s).pointCloudGroup.rotationY = s.pointCloudGroup.rotationY ∧
      (mouseMoves moves s).pointCloudGroup.rotationX = s.pointCloudGroup.rotationX) ∧
    (∀ (rand : Nat → ℚ) (k : Nat) (c : Container) (configs : List (Option PointCloudConfig)),
      ∃ s0 : Session, (initThreeScene rand k (some c) configs).1 = some s0 ∧
        mouseMoves moves s0 = s0) ∧
    (handleMouseUp s).pointCloudGroup = s.pointCloudGroup ∧
    mouseMoves later (handleMouseUp s) = handleMouseUp s ∧
    (mouseMoves later
        (handleMouseUp (mouseMoves moves (handleMouseDown p0.1 p0.2 s)))).pointCloudGroup =
      (mouseMoves moves (handleMouseDown p0.1 p0.2 s)).pointCloudGroup := by
  have h := mouseMoves_dragging moves (handleMouseDown p0.1 p0.2 s) rfl
  have hup : ∀ t : Session, mouseMoves later (handleMouseUp t) = handleMouseUp t :=
    fun t => mouseMoves_idle later (handleMouseUp t) rfl
  refine ⟨h.1, h.2, ?_, ?_, rfl, hup s, ?_⟩
  · intro hs
    have := mouseMoves_idle moves s hs
    exact ⟨this, by rw [this], by rw [this]⟩
  · intro rand k c configs
    exact ⟨_, rfl, mouseMoves_idle moves _ rfl⟩
  · rw [hup]
    rfl

/-- Witness for claim C14: a session whose drag has just ended is not being
dragged, and two moves leave it as it is. -/
theorem drag_rotation_witness :
    ∃ s : Session, (initThreeScene (fun _ => 0) 0 (some ⟨0, 800, 600⟩) []).1 = some s ∧
      mouseMoves [(10, 20), (30, 5)] (handleMouseUp (handleMouseDown 0 0 s)) =
        handleMouseUp (handleMouseDown 0 0 s) :=
  ⟨_, rfl,
    ((drag_rotation (handleMouseUp (handleMouseDown 0 0 _)) (0, 0) [(10, 20), (30, 5)] []).2.2.1
      rfl).1⟩

/-- Claim C14 fails as stated: on a new session, `mousedown` at (0, 0) and
moves to (10, 20) and (30, 5) leave the rotation about y at the double
`1351079888211149 / 2^53 = 0.15000000000000002` (the sum of the doubles 0.05
and 0.1), which is neither `0.005 * 30` computed exactly nor the double
product of `0.005` and 30. -/
theorem drag_rotation_counterexample :
    ∃ s : Session, (initThreeScene (fun _ => 0) 0 (some ⟨0, 800, 600⟩) []).1 = some s ∧
      s.pointCloudGroup.rotationY = 0 ∧
      (mouseMoves [(10, 20), (30, 5)] (handleMouseDown 0 0 s)).pointCloudGroup.rotationY =
        1351079888211149 / 2 ^ 53 ∧
      (1351079888211149 / 2 ^ 53 : ℚ) ≠ 0 + 1 / 200 * (30 - 0) ∧
      (1351079888211149 / 2 ^ 53 : ℚ) ≠ 0 + toDouble (toDouble (1 / 200) * (30 - 0)) := by
  refine ⟨_, rfl, rfl, ?_, by norm_num, ?_⟩
  · have h := (mouseMoves_dragging [(10, 20), (30, 5)]
      (handleMouseDown 0 0 (Option.get (initThreeScene (fun _ => 0) 0
        (some ⟨0, 800, 600⟩) []).1 rfl)) rfl).1
    have hc : toDouble (1 / 200) = 5764607523034235 / 2 ^ 60 := toDouble_literal_0_005 _ rfl
    have e1 : toDouble ((10 : ℚ) - 0) = 10 := toDouble_10 _ (by norm_num)
    have e2 : toDouble ((10 : ℚ) * (5764607523034235 / 2 ^ 60)) = 3602879701896397 / 2 ^ 56 :=
      toDouble_10_mul_0_005 _ (by norm_num)
    have e3 : toDouble ((0 : ℚ) + 3602879701896397 / 2 ^ 56) = 3602879701896397 / 2 ^ 56 :=
      toDouble_half_of_0_1 _ (by norm_num)
    have e4 : toDouble ((30 : ℚ) - 10) = 20 := toDouble_20 _ (by norm_num)
    have e5 : toDouble ((20 : ℚ) * (5764607523034235 / 2 ^ 60)) = 3602879701896397 / 2 ^ 55 :=
      toDouble_20_mul_0_005 _ (by norm_num)
    have e6 : toDouble ((3602879701896397 / 2 ^ 56 : ℚ) + 3602879701896397 / 2 ^ 55) =
        1351079888211149 / 2 ^ 53 := toDouble_inc1_add_inc2 _ (by norm_num)
    have hacc : accumulateRotation 0 0 [10, 30] = 1351079888211149 / 2 ^ 53 := by
      simp only [accumulateRotation]
      rw [hc, e1, e2, e3, e4, e5, e6]
    exact h.trans hacc
  · have hc : toDouble (1 / 200) = 5764607523034235 / 2 ^ 60 := toDouble_literal_0_005 _ rfl
    rw [hc, toDouble_30_mul_0_005 _ (by norm_num)]
    norm_num

/-- Claim C15, as the code has it. After every sequence of reconciliation
runs, renders of the published slot map and display frames, if no publication
is pending (the render-loop effect has re-run since the last reconciliation),
the next run of the per-frame callback calls `render` exactly on the sessions
of the current slot map, and none of them has been disposed. -/
theorem committed_frame_renders_live (rand : Nat → ℚ) (events : List ViewerEvent)
    (hcommitted : (Viewer.after rand events Viewer.initial).pending = none) :
    (Viewer.after rand events Viewer.initial).frame.renders =
      (Viewer.after rand events Viewer.initial).renders ++
        (Viewer.after rand events Viewer.initial).threeObjects.active.filterMap
          (Viewer.after rand events Viewer.initial).heap ∧
    ∀ s ∈ (Viewer.after rand events Viewer.initial).threeObjects.active.filterMap
        (Viewer.after rand events Viewer.initial).heap,
      s.renderer.disposed = false := by
  have hsound := after_sound rand events Viewer.initial initial_sound
  have hloop := hsound.2 hcommitted
  constructor
  · simp only [Viewer.frame, hloop]
  · intro s hs
    obtain ⟨h, hh, hs2⟩ := List.mem_filterMap.mp hs
    exact hsound.1 h (by simpa [Viewer.published, hcommitted] using hh) s hs2

/-- Witness for claim C15: the first seed detection is shown in `original`
and the publication is rendered. -/
theorem committed_frame_renders_live_witness :
    (Viewer.after (fun _ => 0)
        [ViewerEvent.change ⟨some ⟨0, 800, 600⟩, none, none⟩ (some seedDetection1)
            "original" false,
          ViewerEvent.commit] Viewer.initial).pending = none ∧
    (List.filterMap
        (Viewer.after (fun _ => 0)
          [ViewerEvent.change ⟨some ⟨0, 800, 600⟩, none, none⟩ (some seedDetection1)
              "original" false,
            ViewerEvent.commit] Viewer.initial).heap
        (Viewer.after (fun _ => 0)
          [ViewerEvent.change ⟨some ⟨0, 800, 600⟩, none, none⟩ (some seedDetection1)
              "original" false,
            ViewerEvent.commit] Viewer.initial).threeObjects.active).all
      (fun s => !s.renderer.disposed) = true :=
  ⟨rfl,
    List.all_eq_true.mpr (fun s hs => by
      have h := (committed_frame_renders_live (fun _ => 0)
        [ViewerEvent.change ⟨some ⟨0, 800, 600⟩, none, none⟩ (some seedDetection1)
            "original" false,
          ViewerEvent.commit] rfl).2 s hs
      simp [h])⟩

/-- Claim C15 fails as stated: the first seed detection is shown in `original`
and the publication rendered; the view mode changes to `detection`, whose
reconciliation disposes the session; a display frame fires before the new
publication is rendered. `animate` still closes over the disposed session and
renders it. -/
theorem disposed_session_rendered_counterexample :
    ∃ s ∈ (Viewer.after (fun _ => 0)
        [ViewerEvent.change ⟨some ⟨0, 800, 600⟩, none, none⟩ (some seedDetection1)
            "original" false,
          ViewerEvent.commit,
          ViewerEvent.change ⟨some ⟨0, 800, 600⟩, none, none⟩ (some seedDetection1)
            "detection" false,
          ViewerEvent.frame] Viewer.initial).renders,
      s.renderer.disposed = true := by
  obtain ⟨s0, h1, h2, h3, h4, h5⟩ :=
    first_publication_rendered (fun _ => 0) seedDetection1 ⟨0, 800, 600⟩
  have h := stale_frame_renders_disposed (fun _ => 0) ⟨some ⟨0, 800, 600⟩, none, none⟩
    (some seedDetection1) "detection" false _ 0 s0 h1 h2 h3 (by rw [h4]; decide)
  rw [h5] at h
  refine ⟨(cleanup s0).1, ?_, rfl⟩
  simp only [Viewer.after, List.foldl_cons, List.foldl_nil, Viewer.step]
  rw [h]
  simp

/-- Claim C16. The seed detections have pairwise distinct ids. For every
dashboard state with pairwise distinct ids, the upload of a file whose name
ends in `.las` appends exactly one detection, whose id is greater than every
existing id, leaves the existing detections as they were and keeps the ids
pairwise distinct. So after any sequence of uploads, from the initial state or
from any state with distinct ids, the ids are pairwise distinct. -/
theorem detection_ids_unique :
    (seedDetections.map Detection.id).Nodup ∧
    (∀ (st : Dashboard) (fileName now : String),
      (st.detections.map Detection.id).Nodup → endsWith fileName ".las" = true →
      ∃ nd : Detection,
        (handleFileChange (some fileName) now st).detections = st.detections ++ [nd] ∧
        (∀ d ∈ st.detections, d.id < nd.id) ∧
        ((handleFileChange (some fileName) now st).detections.map Detection.id).Nodup) ∧
    (∀ (st : Dashboard) (files : List (Option String × String)),
      (st.detections.map Detection.id).Nodup →
      ((uploads files st).detections.map Detection.id).Nodup) ∧
    (∀ files : List (Option String × String),
      ((uploads files Dashboard.initial).detections.map Detection.id).Nodup) := by
  have hseed : (seedDetections.map Detection.id).Nodup := by decide
  refine ⟨hseed, ?_, ?_, ?_⟩
  · intro st fileName now hn hf
    have hacc := handleFileChange_accepted fileName now st (endsWith_toLowerCase fileName hf)
    refine ⟨newDetection st.detections fileName now, by rw [hacc], ?_, ?_⟩
    · intro d hd
      exact id_lt_newDetection st.detections fileName now d hd
    · exact handleFileChange_nodup _ _ _ hn
  · intro st files hn
    exact uploads_nodup files st hn
  · intro files
    exact uploads_nodup files Dashboard.initial hseed

/-- Witness for claim C16: `scan.las` uploaded to the initial dashboard. -/
theorem detection_ids_unique_witness :
    ∃ nd : Detection,
      (handleFileChange (some "scan.las") "2023-06-16T09:00:00.000Z"
        Dashboard.initial).detections = Dashboard.initial.detections ++ [nd] ∧
      (∀ d ∈ Dashboard.initial.detections, d.id < nd.id) ∧
      ((handleFileChange (some "scan.las") "2023-06-16T09:00:00.000Z"
        Dashboard.initial).detections.map Detection.id).Nodup :=
  detection_ids_unique.2.1 Dashboard.initial "scan.las" "2023-06-16T09:00:00.000Z"
    (by decide) (by decide)

/-- Claim C17. In every dashboard state reached from the initial state, before
or after its first effect, through available actions (a card click, a click on
a view button that is not disabled, an upload), a selected placeholder upload
implies that the view mode is `original`. -/
theorem placeholder_selected_view_original (actions : List Action) (start st : Dashboard)
    (d : Detection)
    (hstart : start = Dashboard.initial ∨ start = autoSelect Dashboard.initial)
    (hrun : Dashboard.run start actions = some st)
    (hsel : st.selectedDetection = some d) (hlas : d.isLasUpload = true) :
    st.currentView = "original" := by
  have h0 : viewInvariant Dashboard.initial := ⟨fun _ => rfl, fun _ _ _ => rfl⟩
  have hs : viewInvariant start := by
    rcases hstart with rfl | rfl
    · exact h0
    · exact autoSelect_viewInvariant _ h0
  exact (run_viewInvariant actions start st hs hrun).2 d hsel hlas

/-- Witness for claim C17: after the first effect, the Both button of the
first seed detection is clicked and then `scan.las` is uploaded. -/
theorem placeholder_selected_view_original_witness :
    (((autoSelect Dashboard.initial).step (Action.clickBoth seedDetection1)).step
      (Action.upload (some "scan.las") "2023-06-16T09:00:00.000Z")).currentView = "original" :=
  placeholder_selected_view_original
    [Action.clickBoth seedDetection1,
      Action.upload (some "scan.las") "2023-06-16T09:00:00.000Z"]
    (autoSelect Dashboard.initial) _ uploadedSample (Or.inr rfl) (by decide) (by decide)
    (by decide)

/-- Claim C18. On every detection the dashboard holds after any sequence of
uploads, the two seeds and every detection `handleFileChange` builds,
`isLasUpload` is true exactly when `originalPointCloud` starts with
`LAS_FILE:`; every detection `handleFileChange` builds has both. -/
theorem placeholder_notions_agree (files : List (Option String × String)) :
    (∀ d ∈ (uploads files Dashboard.initial).detections, d.isLasUpload = isLas (some d)) ∧
    (∀ d ∈ seedDetections, d.isLasUpload = false ∧ isLas (some d) = false) ∧
    (∀ (detections : List Detection) (fileName now : String),
      (newDetection detections fileName now).isLasUpload = true ∧
      isLas (some (newDetection detections fileName now)) = true) := by
  refine ⟨uploads_flagsAgree files _ initial_flagsAgree, ?_, ?_⟩
  · intro d hd
    simp only [seedDetections, List.mem_cons, List.mem_singleton, List.not_mem_nil,
      or_false] at hd
    rcases hd with rfl | rfl <;> decide
  · intro detections fileName now
    exact ⟨rfl, isLas_newDetection detections fileName now⟩

/-- Witness for claim C18: the detection built for `scan.las` is in the list
after its upload and has the flag and the prefix. -/
theorem placeholder_notions_agree_witness :
    (newDetection seedDetections "scan.las" "2023-06-16T09:00:00.000Z").isLasUpload =
      isLas (some (newDetection seedDetections "scan.las" "2023-06-16T09:00:00.000Z")) :=
  (placeholder_notions_agree [(some "scan.las", "2023-06-16T09:00:00.000Z")]).1 _ (by decide)

end BorderBeam
